import Mathlib

/-!
# aiVoice orchestrator: the per-session state machine

A shallow embedding of `server/main.go` (the session supervisor, tool executor and
transcript assembler), of the message schema of `server/internal/protocol/gemini.go`, of
the setup builder of `server/internal/orchestrator/setup.go`, and of the docstring round
trip of the configuration editor in `dashboard-server/main.go`.

Conventions of the embedding:

* A Go struct is a Lean structure with the same field names; a nilable pointer is an
  `Option`; a slice is a `List`; Go `int` is `Int` (no arithmetic that could overflow is
  performed on the counters); a Go `string` is a `String`.
* A method that mutates `*Session` is a function from the session before to the session
  after, together with the list of effects it performed, in program order (channel sends,
  spawned goroutines, HTTP calls, cancellation).
* Whatever the code obtains from outside the repository (the clock, fresh UUIDs, the JSON
  library, the database driver, HTTP responses, environment variables) is an explicit
  argument, so every statement holds for all behaviours of those collaborators.
* The session mutex serialises the bodies modelled here; each definition is one critical
  section or one goroutine body run without interleaving.
* A channel send is recorded as an effect when the code performs it; a send on a full
  channel blocks until there is room. `json.Marshal` of a value built by the orchestrator
  is kept as that value (its error result is ignored by the code).
-/

namespace AiVoice

/-! ## Message schema (`internal/protocol/gemini.go`) -/

/-- A raw websocket frame or raw JSON text (`[]byte`, `json.RawMessage`). -/
abbrev Bytes := String

/-- A dynamically typed JSON value (Go `interface{}` as produced or consumed by
`encoding/json`); objects keep their fields as an association list. -/
inductive Json where
  | null
  | bool (b : Bool)
  | num (n : Int)
  | str (s : String)
  | arr (items : List Json)
  | obj (fields : List (String × Json))

/-- Go type `protocol.InlineData`. -/
structure InlineData where
  MimeType : String
  Data : String
  deriving DecidableEq, Repr

/-- Go type `protocol.Part`. -/
structure Part where
  Text : String
  InlineData : Option InlineData
  Thought : Bool
  deriving DecidableEq, Repr

/-- Go type `protocol.Turn`. -/
structure Turn where
  Role : String
  Parts : List Part
  deriving DecidableEq, Repr

/-- Go type `protocol.ClientContent`. -/
structure ClientContent where
  Turns : List Turn
  TurnComplete : Bool
  deriving DecidableEq, Repr

/-- Go type `protocol.RealtimeInput`. -/
structure RealtimeInput where
  MediaChunks : List InlineData
  deriving DecidableEq, Repr

/-- Go type `protocol.FunctionResponse`. -/
structure FunctionResponse where
  ID : String
  Name : String
  Response : Json
  Scheduling : String

/-- Go type `protocol.ToolResponse`. -/
structure ToolResponse where
  FunctionResponses : List FunctionResponse

/-- Go type `protocol.PrebuiltVoiceConfig`. -/
structure PrebuiltVoiceConfig where
  VoiceName : String

/-- Go type `protocol.VoiceConfig`. -/
structure VoiceConfig where
  PrebuiltVoiceConfig : Option PrebuiltVoiceConfig

/-- Go type `protocol.SpeechConfig`. -/
structure SpeechConfig where
  VoiceConfig : Option VoiceConfig
  LanguageCode : String

/-- Go type `protocol.ThinkingConfig`. -/
structure ThinkingConfig where
  IncludeThoughts : Bool

/-- Go type `protocol.GenerationConfig`. The `float64` temperature carries the decimal
value written in the source or read from the database; no arithmetic is done on it. -/
structure GenerationConfig where
  ResponseModalities : List String
  SpeechConfig : Option SpeechConfig
  Temperature : Rat
  ThinkingConfig : Option ThinkingConfig

/-- Go type `protocol.SystemInstruction`. -/
structure SystemInstruction where
  Parts : List Part

/-- Go type `protocol.FunctionDeclaration`. -/
structure FunctionDeclaration where
  Name : String
  Description : String
  Parameters : Json
  Behavior : String

/-- Go type `protocol.Tool`. -/
structure Tool where
  FunctionDeclarations : List FunctionDeclaration

/-- Go type `protocol.Setup`. -/
structure Setup where
  Model : String
  GenerationConfig : Option GenerationConfig
  SystemInstruction : Option SystemInstruction
  Tools : List Tool
  InputAudioTranscription : Json
  OutputAudioTranscription : Json

/-- Go type `protocol.ClientMessage` (orchestrator to upstream). -/
structure ClientMessage where
  Setup : Option Setup
  ClientContent : Option ClientContent
  RealtimeInput : Option RealtimeInput
  ToolResponse : Option ToolResponse

/-- Go type `protocol.Transcription`. -/
structure Transcription where
  Text : String
  deriving DecidableEq, Repr

/-- Go type `protocol.ServerContent`. -/
structure ServerContent where
  ModelTurn : Option Turn
  InputTranscription : Option Transcription
  OutputTranscription : Option Transcription
  TurnComplete : Bool
  Interrupted : Bool
  deriving DecidableEq, Repr

/-- Go type `protocol.FunctionCall`; `Args` is the decoded `map[string]interface{}`. -/
structure FunctionCall where
  ID : String
  Name : String
  Args : List (String × Json)

/-- Go type `protocol.UsageMetadata`. -/
structure UsageMetadata where
  PromptTokenCount : Int
  CandidatesTokenCount : Int
  TotalTokenCount : Int
  deriving DecidableEq, Repr

/-- Go type `protocol.ToolCall`. -/
structure ToolCall where
  FunctionCalls : List FunctionCall

/-- Go type `protocol.ServerMessage` (upstream to orchestrator); `SetupComplete` is a
pointer to an empty struct. -/
structure ServerMessage where
  ServerContent : Option ServerContent
  ToolCall : Option ToolCall
  SetupComplete : Option Unit
  UsageMetadata : Option UsageMetadata

/-! ## Session state (`server/main.go`, `type Session`) -/

/-- One transcript entry: the `map[string]interface{}` with the four keys
`id`, `role`, `text`, `timestamp` that the code appends to `Session.Transcript`. -/
structure Utterance where
  id : String
  role : String
  text : String
  timestamp : String
  deriving DecidableEq, Repr

/-- The data fields of Go type `Session`. The sockets, the two channels, the mutex and the
cancellation handle are not data: what the code does with them is recorded as `Effect`s. -/
structure Session where
  ID : String
  ClientName : String
  Transcript : List Utterance
  InputTokens : Int
  OutputTokens : Int
  WasGraceful : Bool
  ShouldTerm : Bool
  TurnAgentText : String
  TurnUserText : String
  Status : String
  DurationLimit : Int
  TerminationAlertTime : Int
  AlertInstruction : String
  AlertSent : Bool
  deriving DecidableEq, Repr

/-- The session built at accept time (`handleWebSocket`, main.go:199-211): the listed fields
are set, every other field has its Go zero value. -/
def newSession (sessionID clientName : String) : Session :=
  { ID := sessionID
    ClientName := clientName
    Transcript := []
    InputTokens := 0
    OutputTokens := 0
    WasGraceful := false
    ShouldTerm := false
    TurnAgentText := ""
    TurnUserText := ""
    Status := "Active"
    DurationLimit := 0
    TerminationAlertTime := 0
    AlertInstruction := ""
    AlertSent := false }

/-- What is put on one of the two outbound channels: either a frame forwarded untouched, or
the `json.Marshal` encoding of a value built by the orchestrator (kept as that value). -/
inductive Wire where
  | raw (message : Bytes)
  | clientMessage (m : ClientMessage)
  | object (v : Json)

/-- The arguments of one call of `syncWithDashboard` (main.go:647). -/
structure SyncArgs where
  sessionID : String
  clientName : String
  transcript : List Utterance
  duration : Int
  inputTokens : Int
  outputTokens : Int
  status : String
  deriving DecidableEq, Repr

/-- The observable actions of the session code, in the order the code performs them. -/
inductive Effect where
  /-- `s.ToGemini <- b` executed by the caller. -/
  | toGemini (m : Wire)
  /-- `s.ToClient <- b` executed by the caller. -/
  | toClient (m : Wire)
  /-- `go func() { ...; s.ToGemini <- b }()`: the send happens in a spawned goroutine. -/
  | goToGemini (m : Wire)
  /-- `go func(...) { syncWithDashboard(...) }(...)`: checkpoint sync in a spawned goroutine. -/
  | goSync (a : SyncArgs)
  /-- `syncWithDashboard(...)` called in place. -/
  | sync (a : SyncArgs)
  /-- The goroutine of main.go:564-582: poll `len(s.ToClient)` every 100 ms, cancel once it
  is empty (after 200 ms more) or after 5 s. -/
  | goCancelWhenDrained
  /-- `s.Cancel()` called in place. -/
  | cancel
  /-- `s.ClientConn.Close()`. -/
  | closeClientConn
  /-- `s.GeminiConn.Close()`. -/
  | closeGeminiConn
  /-- `go func(fc) { ...; s.handleToolCall(fc) }(fc)` (main.go:386-390): the call is handled
  in a spawned goroutine. -/
  | goHandleToolCall (fc : FunctionCall)

/-- A fresh utterance id and timestamp: the values of `uuid.New().String()[:8]` and of
`time.Now().Format(time.RFC3339)` at one append. -/
structure Stamp where
  id : String
  timestamp : String
  deriving DecidableEq, Repr

/-! ## Transcript assembler (`Session.processServerContent`, main.go:496-585) -/

/-- What one call of `processServerContent` reads from outside: the stamps of the user and
of the agent utterance (used only if that utterance is appended), the value of
`int(time.Since(s.StartTime).Seconds())` at main.go:533, and the same expression as
evaluated by the checkpoint goroutine at main.go:556. -/
structure TurnEnv where
  userStamp : Stamp
  agentStamp : Stamp
  elapsed : Int
  syncElapsed : Int
  deriving DecidableEq, Repr

/-- main.go:500-505: when a model turn is present and user text is pending, append it as a
user utterance and clear it. -/
def flushUserText (st : Stamp) (s : Session) (sc : ServerContent) : Session :=
  if sc.ModelTurn.isSome ∧ s.TurnUserText ≠ "" then
    { s with
      Transcript := s.Transcript ++ [⟨st.id, "user", s.TurnUserText, st.timestamp⟩]
      TurnUserText := "" }
  else s

/-- main.go:507-509: accumulate the input transcription. -/
def addInputTranscription (s : Session) (sc : ServerContent) : Session :=
  match sc.InputTranscription with
  | some t => if t.Text ≠ "" then { s with TurnUserText := s.TurnUserText ++ t.Text } else s
  | none => s

/-- main.go:513-515: the body of the loop over the model-turn parts. -/
def addPartText (s : Session) (p : Part) : Session :=
  if p.Text ≠ "" then { s with TurnAgentText := s.TurnAgentText ++ p.Text } else s

/-- main.go:511-517: accumulate the text of the model-turn parts, in order. -/
def addModelTurn (s : Session) (sc : ServerContent) : Session :=
  match sc.ModelTurn with
  | some mt => mt.Parts.foldl addPartText s
  | none => s

/-- main.go:519-521: accumulate the output transcription. -/
def addOutputTranscription (s : Session) (sc : ServerContent) : Session :=
  match sc.OutputTranscription with
  | some t => if t.Text ≠ "" then { s with TurnAgentText := s.TurnAgentText ++ t.Text } else s
  | none => s

/-- main.go:540: the wind-down instruction used when `AlertInstruction` is empty. -/
def defaultAlertInstruction : String :=
  "SISTEMA: O tempo de atendimento está acabando. Finalize gentilmente a conversa agora."

/-- A `ClientMessage` holding one user-role turn with one text part and
`turnComplete = true` (main.go:542-547, and 370-375 for the wake-up). -/
def userTextMessage (text : String) : ClientMessage :=
  { Setup := none
    ClientContent := some
      { Turns := [{ Role := "user", Parts := [{ Text := text, InlineData := none, Thought := false }] }]
        TurnComplete := true }
    RealtimeInput := none
    ToolResponse := none }

/-- main.go:562: `map[string]interface{}{"type": "session_terminated"}`. -/
def sessionTerminated : Json :=
  Json.obj [("type", Json.str "session_terminated")]

/-- main.go:524-529: at turn completion, append the pending agent text, if any, as an agent
utterance and clear it. -/
def flushAgentText (st : Stamp) (s : Session) : Session :=
  if s.TurnAgentText ≠ "" then
    { s with
      Transcript := s.Transcript ++ [⟨st.id, "agent", s.TurnAgentText, st.timestamp⟩]
      TurnAgentText := "" }
  else s

/-- main.go:532-534: the condition under which the wind-down alert is injected. -/
def alertDue (elapsed : Int) (s : Session) : Bool :=
  !s.AlertSent && decide (s.TerminationAlertTime > 0) && decide (elapsed ≥ s.TerminationAlertTime)

/-- main.go:536-550: mark the alert as sent and spawn the goroutine that sends the
instruction upstream. (The goroutine reads `s.AlertInstruction` when it runs; the value at
spawn time is used here.) -/
def injectAlert (s : Session) : Session × List Effect :=
  ({ s with AlertSent := true },
   [Effect.goToGemini (Wire.clientMessage (userTextMessage
      (if s.AlertInstruction = "" then defaultAlertInstruction else s.AlertInstruction)))])

/-- main.go:555-558: the checkpoint sync, with the transcript copied at spawn time. -/
def checkpoint (env : TurnEnv) (s : Session) : Effect :=
  Effect.goSync
    { sessionID := s.ID
      clientName := s.ClientName
      transcript := s.Transcript
      duration := env.syncElapsed
      inputTokens := s.InputTokens
      outputTokens := s.OutputTokens
      status := s.Status }

/-- main.go:560-583: when termination was requested, notify the client and spawn the
goroutine that cancels once the client queue has drained. -/
def gracefulShutdown (s : Session) : List Effect :=
  if s.ShouldTerm then
    [Effect.toClient (Wire.object sessionTerminated), Effect.goCancelWhenDrained]
  else []

/-- main.go:523-584: the body of `if sc.TurnComplete`. -/
def completeTurn (env : TurnEnv) (s : Session) : Session × List Effect :=
  let s1 := flushAgentText env.agentStamp s
  let r := if alertDue env.elapsed s1 then injectAlert s1 else (s1, [])
  (r.1, r.2 ++ [checkpoint env r.1] ++ gracefulShutdown r.1)

/-- The accumulation part of `processServerContent` (main.go:500-521). -/
def accumulate (env : TurnEnv) (s : Session) (sc : ServerContent) : Session :=
  addOutputTranscription (addModelTurn (addInputTranscription (flushUserText env.userStamp s sc) sc) sc) sc

/-- Method `Session.processServerContent` (main.go:496-585). -/
def processServerContent (env : TurnEnv) (s : Session) (sc : ServerContent) :
    Session × List Effect :=
  let s1 := accumulate env s sc
  if sc.TurnComplete then completeTurn env s1 else (s1, [])

/-! ## Tool executor (`Session.handleToolCall`, `callRAG`, main.go:415-494 and 682-711) -/

/-- The outcome of `http.Get(searchURL)` followed by decoding the body into
`struct { Hits []interface{} }`: the request failed, or a response arrived with a status
code and a body that either fails to decode or yields the `Hits` slice (`none` for a nil
slice, which `encoding/json` writes as `null`). -/
inductive HttpReply where
  | failed (err : String)
  | response (statusCode : Int) (body : Except String (Option (List Json)))

/-- What one call of `handleToolCall` reads from outside: the process environment
(`os.Getenv`), `url.QueryEscape`, the search service, and the stamp of the link utterance. -/
structure ToolEnv where
  getenv : String → String
  queryEscape : String → String
  httpGet : String → HttpReply
  linkStamp : Stamp

/-- The request URL built by `callRAG` (main.go:683-691). -/
def searchURL (env : ToolEnv) (query category : String) : String :=
  let dashboardURL :=
    if env.getenv "DASHBOARD_INTERNAL_URL" = "" then "http://dashboard-server:8080"
    else env.getenv "DASHBOARD_INTERNAL_URL"
  let category := if category = "" then "all" else category
  dashboardURL ++ "/api/knowledge/search?q=" ++ env.queryEscape query
    ++ "&category=" ++ env.queryEscape category

/-- The `Hits` slice as a JSON value. -/
def hitsJson : Option (List Json) → Json
  | none => Json.null
  | some hs => Json.arr hs

/-- Function `callRAG` (main.go:682-711): the returned map and the returned error
(`none` for a nil error). -/
def callRAG (env : ToolEnv) (query category : String) : List (String × Json) × Option String :=
  match env.httpGet (searchURL env query category) with
  | HttpReply.failed err => ([("error", Json.str "Erro de conexão")], some err)
  | HttpReply.response statusCode body =>
    if statusCode ≠ 200 then
      ([("error", Json.str "Erro na busca")], some ("status: " ++ toString statusCode))
    else
      match body with
      | Except.error err => ([("error", Json.str "Erro ao processar")], some err)
      | Except.ok hits => ([("content", hitsJson hits)], none)

/-- The Go expression `v, _ := args[key].(string)`: the string stored under `key`, and the
empty string when the key is missing or holds a value of another type. -/
def argString (args : List (String × Json)) (key : String) : String :=
  match args.lookup key with
  | some (Json.str v) => v
  | _ => ""

/-- A `ClientMessage` carrying one function response (main.go:422-428, 435-441, 469-480). -/
def toolResponseMessage (fr : FunctionResponse) : ClientMessage :=
  { Setup := none
    ClientContent := none
    RealtimeInput := none
    ToolResponse := some { FunctionResponses := [fr] } }

/-- main.go:417-431: the knowledge-search tool. -/
def knowledgeTool (env : ToolEnv) (s : Session) (fc : FunctionCall) : Session × List Effect :=
  if fc.Name = "consultar_base_conhecimento" then
    let query := argString fc.Args "query"
    let category := argString fc.Args "category"
    let toolResp := (callRAG env query category).1
    (s, [Effect.toGemini (Wire.clientMessage (toolResponseMessage
      { Name := fc.Name, ID := fc.ID, Response := Json.obj toolResp, Scheduling := "" }))])
  else (s, [])

/-- main.go:433-450: the termination tool. -/
def finalizeTool (s : Session) (fc : FunctionCall) : Session × List Effect :=
  if fc.Name = "finalizar_atendimento" then
    ({ s with WasGraceful := true, Status := "Completed", ShouldTerm := true },
     [Effect.toGemini (Wire.clientMessage (toolResponseMessage
      { Name := fc.Name, ID := fc.ID
        Response := Json.obj [("status", Json.str "success")], Scheduling := "" }))])
  else (s, [])

/-- main.go:458-464: the side-channel message shown to the client. -/
def linkBubble (url aliasText : String) : Json :=
  Json.obj
    [("type", Json.str "link_bubble"),
     ("payload", Json.obj [("url", Json.str url), ("alias", Json.str aliasText)])]

/-- main.go:452-493: the link tool. -/
def sendLinkTool (env : ToolEnv) (s : Session) (fc : FunctionCall) : Session × List Effect :=
  if fc.Name = "sendLink" then
    let url := argString fc.Args "url"
    let aliasText := argString fc.Args "alias"
    ({ s with
       Transcript := s.Transcript ++
         [⟨env.linkStamp.id, "agent", "[" ++ aliasText ++ "](" ++ url ++ ")", env.linkStamp.timestamp⟩] },
     [Effect.toClient (Wire.object (linkBubble url aliasText)),
      Effect.toGemini (Wire.clientMessage (toolResponseMessage
        { Name := fc.Name, ID := fc.ID
          Response := Json.obj
            [("status", Json.str "success"),
             ("message", Json.str "Link exibido no chat com sucesso.")]
          Scheduling := "SILENT" }))])
  else (s, [])

/-- Method `Session.handleToolCall` (main.go:415-494): three consecutive `if`s on the name
of the call. -/
def handleToolCall (env : ToolEnv) (s : Session) (fc : FunctionCall) : Session × List Effect :=
  let r1 := knowledgeTool env s fc
  let r2 := finalizeTool r1.1 fc
  let r3 := sendLinkTool env r2.1 fc
  (r3.1, r1.2 ++ r2.2 ++ r3.2)

/-! ## Downstream reader (`handleWebSocket`, main.go:259-348, body of the loop) -/

/-- The anonymous struct `{Type string; Payload json.RawMessage}` of main.go:266-269. -/
structure Envelope where
  MsgType : String
  Payload : Bytes
  deriving DecidableEq, Repr

/-- The field `Audio` of the anonymous struct of main.go:297-302. -/
structure AudioPayload where
  Data : String
  MimeType : String
  deriving DecidableEq, Repr

/-- What the downstream reader obtains from outside the code paths modelled here: the four
`json.Unmarshal` calls (`none` when the call returns an error), the pointer returned by
`orchestrator.GetInitialSetup` for a client name, and the outcome of the limits query of
main.go:290, `db.QueryRow(...).Scan(&dLimit, &tAlert, &pAlert)`: the values left in the
three locals, or `none` when the call does not return because of a run-time fault. -/
structure ReaderEnv where
  unmarshalEnvelope : Bytes → Option Envelope
  unmarshalAudio : Bytes → Option AudioPayload
  unmarshalClientContent : Bytes → Option ClientContent
  unmarshalToolResponse : Bytes → Option ToolResponse
  getInitialSetup : String → Option Setup
  queryLimits : String → Option (Int × Int × String)

/-- The zero value of `protocol.ClientMessage` (`var clientMsg protocol.ClientMessage`). -/
def emptyClientMessage : ClientMessage :=
  { Setup := none, ClientContent := none, RealtimeInput := none, ToolResponse := none }

/-- main.go:314-319: is the content the silent wake-up ping? -/
def isProactive (content : ClientContent) : Bool :=
  match content.Turns with
  | [turn] =>
    match turn.Parts with
    | [part] => part.Text == "Olá"
    | _ => false
  | _ => false

/-- main.go:325-330: the body of the inner loop over the parts of a client turn. -/
def addUserPart (s : Session) (part : Part) : Session :=
  if part.Text ≠ "" then
    { s with
      TurnUserText :=
        (if s.TurnUserText ≠ "" then s.TurnUserText ++ " " else s.TurnUserText) ++ part.Text }
  else s

/-- main.go:321-334: accumulate the typed user text unless it is the wake-up ping. -/
def noteClientContent (s : Session) (content : ClientContent) : Session :=
  if isProactive content then s
  else content.Turns.foldl (fun acc turn => turn.Parts.foldl addUserPart acc) s

/-- main.go:275-341: the `switch msg.Type`, giving the session afterwards and the
translated message; `none` when the limits query of the `setup` case faults. -/
def translate (env : ReaderEnv) (s : Session) (msg : Envelope) : Option (Session × ClientMessage) :=
  if msg.MsgType = "setup" then
    let setupPayload := env.getInitialSetup s.ClientName
    match env.queryLimits s.ClientName with
    | none => none
    | some (dLimit, tAlert, pAlert) =>
      some ({ s with DurationLimit := dLimit, TerminationAlertTime := tAlert, AlertInstruction := pAlert },
            { emptyClientMessage with Setup := setupPayload })
  else if msg.MsgType = "realtimeInput" ∨ msg.MsgType = "realtime_input" then
    match env.unmarshalAudio msg.Payload with
    | some audio =>
      some (s, { emptyClientMessage with
                 RealtimeInput := some { MediaChunks := [{ MimeType := audio.MimeType, Data := audio.Data }] } })
    | none => some (s, emptyClientMessage)
  else if msg.MsgType = "clientContent" ∨ msg.MsgType = "client_content" then
    match env.unmarshalClientContent msg.Payload with
    | some content =>
      some (noteClientContent s content, { emptyClientMessage with ClientContent := some content })
    | none => some (s, emptyClientMessage)
  else if msg.MsgType = "toolResponse" ∨ msg.MsgType = "tool_response" then
    match env.unmarshalToolResponse msg.Payload with
    | some resp => some (s, { emptyClientMessage with ToolResponse := some resp })
    | none => some (s, emptyClientMessage)
  else some (s, emptyClientMessage)

/-- main.go:343-346: forward the translated message when one of its branches is set. -/
def forwardTranslated (clientMsg : ClientMessage) : List Effect :=
  if clientMsg.Setup.isSome ∨ clientMsg.ClientContent.isSome ∨ clientMsg.RealtimeInput.isSome
      ∨ clientMsg.ToolResponse.isSome then
    [Effect.toGemini (Wire.clientMessage clientMsg)]
  else []

/-- One iteration of the downstream reader on a frame that was read (main.go:266-346). -/
def downstreamReader (env : ReaderEnv) (s : Session) (message : Bytes) :
    Option (Session × List Effect) :=
  match env.unmarshalEnvelope message with
  | none => some (s, [Effect.toGemini (Wire.raw message)])
  | some msg =>
    match translate env s msg with
    | none => none
    | some (s1, clientMsg) => some (s1, forwardTranslated clientMsg)

/-! ## Usage metadata, hang-up beacon and cleanup -/

/-- main.go:398-403: the token counters take the last values reported by upstream. -/
def updateUsage (s : Session) (um : UsageMetadata) : Session :=
  { s with InputTokens := um.PromptTokenCount, OutputTokens := um.CandidatesTokenCount }

/-- main.go:611-615: what `handleTerminate` does to the session it found. -/
def hangUp (s : Session) : Session × List Effect :=
  ({ s with WasGraceful := false }, [Effect.cancel])

/-- Method `Session.Cleanup` (main.go:627-645); `elapsed` is the value of
`int(time.Since(s.StartTime).Seconds())` at main.go:633. -/
def Cleanup (elapsed : Int) (s : Session) : Session × List Effect :=
  let s1 := if s.Status = "Active" then { s with Status := "Interrupted" } else s
  (s1,
   [Effect.cancel, Effect.closeClientConn, Effect.closeGeminiConn,
    Effect.sync
      { sessionID := s1.ID
        clientName := s1.ClientName
        transcript := s1.Transcript
        duration := elapsed
        inputTokens := s1.InputTokens
        outputTokens := s1.OutputTokens
        status := s1.Status }])

/-- The process-wide state: the `Session` objects allocated so far (a `*Session` is an
index into this list) and the registry `activeSessions`, from session id to `*Session`. -/
structure World where
  sessions : List Session
  activeSessions : List (String × Nat)

/-- The result of one request to `/terminate`: the world afterwards, the session whose
scope was cancelled (if any) and the HTTP status code written. -/
structure TerminateReply where
  world : World
  cancelled : Option Nat
  statusCode : Nat

/-- Function `handleTerminate` (main.go:588-625) on a request with the given method and
`sessionId` query parameter. -/
def handleTerminate (w : World) (method sessionID : String) : TerminateReply :=
  if method = "OPTIONS" then { world := w, cancelled := none, statusCode := 200 }
  else if sessionID = "" then { world := w, cancelled := none, statusCode := 400 }
  else
    match w.activeSessions.lookup sessionID with
    | some p =>
      match w.sessions[p]? with
      | some s =>
        { world := { w with sessions := w.sessions.set p (hangUp s).1 }
          cancelled := some p
          statusCode := 200 }
      | none => { world := w, cancelled := some p, statusCode := 200 }
    | none => { world := w, cancelled := none, statusCode := 200 }

/-! ## Session operations and vocabulary for the statements -/

/-- The operations that read or write the session fields. -/
inductive Op where
  | downstream (env : ReaderEnv) (message : Bytes)
  | toolCall (env : ToolEnv) (fc : FunctionCall)
  | serverContent (env : TurnEnv) (sc : ServerContent)
  | usage (um : UsageMetadata)
  | terminate
  | cleanup (elapsed : Int)

/-- Run one operation: the session afterwards and the effects, `none` when the operation
faults. -/
def Op.run : Op → Session → Option (Session × List Effect)
  | Op.downstream env message, s => downstreamReader env s message
  | Op.toolCall env fc, s => some (handleToolCall env s fc)
  | Op.serverContent env sc, s => some (processServerContent env s sc)
  | Op.usage um, s => some (updateUsage s um, [])
  | Op.terminate, s => some (hangUp s)
  | Op.cleanup elapsed, s => some (Cleanup elapsed s)

/-- The utterances appended between two transcripts of the same session. -/
def appended (before after : Session) : List Utterance :=
  after.Transcript.drop before.Transcript.length

/-- The utterances of a given role. -/
def withRole (role : String) (us : List Utterance) : List Utterance :=
  us.filter (fun u => u.role = role)

/-- The text of the input transcription of a message, empty when there is none. -/
def inputText (sc : ServerContent) : String :=
  match sc.InputTranscription with
  | some t => t.Text
  | none => ""

/-- The text of the output transcription of a message, empty when there is none. -/
def outputText (sc : ServerContent) : String :=
  match sc.OutputTranscription with
  | some t => t.Text
  | none => ""

/-- The non-empty part texts of the model turn of a message, in order. -/
def modelTexts (sc : ServerContent) : List String :=
  match sc.ModelTurn with
  | some mt => (mt.Parts.map (fun p => p.Text)).filter (fun t => t ≠ "")
  | none => []

/-- The agent text accumulated once a message has been read: the pending agent text,
then the non-empty model-turn part texts in order, then the output transcription. -/
def agentAcc (s : Session) (sc : ServerContent) : String :=
  (modelTexts sc).foldl (fun acc t => acc ++ t) s.TurnAgentText ++ outputText sc

/-- Process a sequence of `serverContent` messages in order, each with its own readings. -/
def processAll (s : Session) : List (TurnEnv × ServerContent) → Session
  | [] => s
  | (env, sc) :: rest => processAll (processServerContent env s sc).1 rest

/-- The sync calls made in place among a list of effects. -/
def syncCalls : List Effect → List SyncArgs
  | [] => []
  | Effect.sync a :: rest => a :: syncCalls rest
  | _ :: rest => syncCalls rest

/-- The messages a list of effects puts on `ToGemini` from the calling goroutine. -/
def sentToGemini : List Effect → List Wire
  | [] => []
  | Effect.toGemini m :: rest => m :: sentToGemini rest
  | _ :: rest => sentToGemini rest

/-- The messages a list of effects puts on `ToClient` from the calling goroutine. -/
def sentToClient : List Effect → List Wire
  | [] => []
  | Effect.toClient m :: rest => m :: sentToClient rest
  | _ :: rest => sentToClient rest

/-- The user utterance minted by a message, if any (main.go:500-503). -/
def userFlush (env : TurnEnv) (s : Session) (sc : ServerContent) : List Utterance :=
  if sc.ModelTurn.isSome ∧ s.TurnUserText ≠ "" then
    [⟨env.userStamp.id, "user", s.TurnUserText, env.userStamp.timestamp⟩]
  else []

/-- The agent utterance minted by a message, if any (main.go:523-527). -/
def agentFlush (env : TurnEnv) (s : Session) (sc : ServerContent) : List Utterance :=
  if sc.TurnComplete = true ∧ agentAcc s sc ≠ "" then
    [⟨env.agentStamp.id, "agent", agentAcc s sc, env.agentStamp.timestamp⟩]
  else []

/-- The utterances minted while a sequence of `serverContent` messages is processed. -/
def minted (s : Session) : List (TurnEnv × ServerContent) → List Utterance
  | [] => []
  | (env, sc) :: rest =>
    userFlush env s sc ++ agentFlush env s sc ++ minted (processServerContent env s sc).1 rest

/-- The envelope types the downstream reader translates (main.go:277, 296, 308, 336). -/
def knownTypes : List String :=
  ["setup", "realtimeInput", "realtime_input", "clientContent", "client_content",
   "toolResponse", "tool_response"]

/-! ## Sample inputs -/

/-- Readings for one `serverContent` message. -/
def demoTurnEnv : TurnEnv :=
  { userStamp := ⟨"0a1b2c3d", "2025-03-01T10:00:00Z"⟩
    agentStamp := ⟨"4e5f6a7b", "2025-03-01T10:00:01Z"⟩
    elapsed := 12
    syncElapsed := 12 }

/-- A session in which the user transcription "oi" is pending. -/
def pendingOi : Session :=
  { newSession "abc" "aiVoice" with TurnUserText := "oi" }

/-- A `serverContent` that only signals the end of the turn. -/
def turnCompleteOnly : ServerContent :=
  { ModelTurn := none, InputTranscription := none, OutputTranscription := none
    TurnComplete := true, Interrupted := false }

/-- A `serverContent` carrying only the input transcription "oi". -/
def hearsOi : ServerContent :=
  { ModelTurn := none, InputTranscription := some ⟨"oi"⟩, OutputTranscription := none
    TurnComplete := false, Interrupted := false }

/-- A `serverContent` carrying a model turn (audio only) while the user keeps talking. -/
def modelSpeaksUserTalks : ServerContent :=
  { ModelTurn := some { Role := "model", Parts := [{ Text := "", InlineData := some ⟨"audio/pcm", "AAAA"⟩, Thought := false }] }
    InputTranscription := some ⟨"tudo bem?"⟩
    OutputTranscription := some ⟨"Olá"⟩
    TurnComplete := false, Interrupted := false }

/-- A `serverContent` carrying a model turn and the end of the turn. -/
def modelEndsTurn : ServerContent :=
  { ModelTurn := some { Role := "model", Parts := [{ Text := "", InlineData := some ⟨"audio/pcm", "BBBB"⟩, Thought := false }] }
    InputTranscription := none
    OutputTranscription := some ⟨", como posso ajudar?"⟩
    TurnComplete := true, Interrupted := false }

/-- One turn: three messages, of which only the last has `turnComplete`. -/
def bargeInTurn : List (TurnEnv × ServerContent) :=
  [(demoTurnEnv, hearsOi), (demoTurnEnv, modelSpeaksUserTalks)]

/-- A tool environment in which the search service is unreachable. -/
def demoToolEnv : ToolEnv :=
  { getenv := fun _ => ""
    queryEscape := fun q => q
    httpGet := fun _ => HttpReply.failed "connection refused"
    linkStamp := ⟨"8c9d0e1f", "2025-03-01T10:00:02Z"⟩ }

/-- The upstream call `finalizar_atendimento` with id `t1`. -/
def finalizeCall : FunctionCall :=
  { ID := "t1", Name := "finalizar_atendimento", Args := [] }

/-- The frame `{"type":"ping","payload":{}}`. -/
def pingFrame : Bytes :=
  "\x7b\"type\":\"ping\",\"payload\":\x7b\x7d\x7d"

/-- A JSON library and database that agree with `encoding/json` on the two frames used
below: `pingFrame` decodes to the envelope of type `ping` with payload `{}`, and the text
`not json` fails to decode. -/
def demoReaderEnv : ReaderEnv :=
  { unmarshalEnvelope := fun m => if m = pingFrame then some ⟨"ping", "\x7b\x7d"⟩ else none
    unmarshalAudio := fun _ => none
    unmarshalClientContent := fun _ => none
    unmarshalToolResponse := fun _ => none
    getInitialSetup := fun _ => none
    queryLimits := fun _ => some (0, 0, "") }

/-- A world with one registered session, `abc`, in which the agent has already called
`finalizar_atendimento`. -/
def finalizedWorld : World :=
  { sessions := [(handleToolCall demoToolEnv (newSession "abc" "aiVoice") finalizeCall).1]
    activeSessions := [("abc", 0)] }

/-! ## Upstream reader (`handleWebSocket`, main.go:350-405, body of the loop) -/

/-- One iteration of the upstream reader on a frame that was read (main.go:359-403);
`unmarshal` is `json.Unmarshal(message, &serverMsg)`, `none` when it returns an error. -/
def upstreamReader (unmarshal : Bytes → Option ServerMessage) (env : TurnEnv) (s : Session)
    (message : Bytes) : Session × List Effect :=
  match unmarshal message with
  | none => (s, [Effect.toClient (Wire.raw message)])
  | some serverMsg =>
    let wake :=
      if serverMsg.SetupComplete.isSome then
        [Effect.goToGemini (Wire.clientMessage (userTextMessage "Olá"))]
      else []
    let tools :=
      match serverMsg.ToolCall with
      | some tc => tc.FunctionCalls.map Effect.goHandleToolCall
      | none => []
    let r :=
      match serverMsg.ServerContent with
      | some sc => processServerContent env s sc
      | none => (s, [])
    let s2 :=
      match serverMsg.UsageMetadata with
      | some um => updateUsage r.1 um
      | none => r.1
    (s2, wake ++ [Effect.toClient (Wire.raw message)] ++ tools ++ r.2)

/-! ## Dashboard sync (`syncWithDashboard`, main.go:647-680) -/

/-- A transcript entry as the JSON object `encoding/json` writes for its map. -/
def utteranceJson (u : Utterance) : Json :=
  Json.obj
    [("id", Json.str u.id), ("role", Json.str u.role), ("text", Json.str u.text),
     ("timestamp", Json.str u.timestamp)]

/-- How `encoding/json` writes a slice of transcript entries: `null` for a nil slice, an
array otherwise (`[]` for an empty non-nil slice). -/
def sliceJson : Option (List Utterance) → Json
  | none => Json.null
  | some us => Json.arr (us.map utteranceJson)

/-- main.go:653-665: the map `syncPayload`; the transcript argument is `none` for a nil
slice. -/
def syncPayload (sessionID clientName : String) (transcript : Option (List Utterance))
    (duration inputTokens outputTokens : Int) (status : String) : List (String × Json) :=
  let transcript :=
    match transcript with
    | none => some []
    | some t => some t
  [("callId", Json.str sessionID),
   ("clientName", Json.str clientName),
   ("newTranscript", sliceJson transcript),
   ("durationSeconds", Json.num duration),
   ("inputTokens", Json.num inputTokens),
   ("outputTokens", Json.num outputTokens),
   ("status", Json.str status)]

/-- The HTTP request issued by `client.Post` at main.go:673. -/
structure HttpPost where
  url : String
  contentType : String
  body : Json

/-- Function `syncWithDashboard` (main.go:647-680): the request it posts. The response is
only logged. -/
def syncWithDashboard (getenv : String → String) (sessionID clientName : String)
    (transcript : Option (List Utterance)) (duration inputTokens outputTokens : Int)
    (status : String) : HttpPost :=
  let dashboardURL :=
    if getenv "DASHBOARD_INTERNAL_URL" = "" then "http://dashboard-server:8081"
    else getenv "DASHBOARD_INTERNAL_URL"
  { url := dashboardURL ++ "/api/calls/sync"
    contentType := "application/json"
    body := Json.obj
      (syncPayload sessionID clientName transcript duration inputTokens outputTokens status) }

/-- The request posted for a sync issued by the session code: both call sites pass the
copy `append([]map[string]interface{}{}, s.Transcript...)`, a non-nil slice
(main.go:558, 638). -/
def SyncArgs.post (getenv : String → String) (a : SyncArgs) : HttpPost :=
  syncWithDashboard getenv a.sessionID a.clientName (some a.transcript) a.duration
    a.inputTokens a.outputTokens a.status

/-! ## Traces and counters for the statements -/

/-- Run a sequence of operations in order, collecting the effects; `none` as soon as one
operation faults. -/
def runTrace (s : Session) : List Op → Option (Session × List Effect)
  | [] => some (s, [])
  | op :: rest =>
    match op.run s with
    | none => none
    | some r =>
      match runTrace r.1 rest with
      | none => none
      | some r2 => some (r2.1, r.2 ++ r2.2)

/-- Handle a sequence of tool calls in order, each with its own environment. -/
def handleToolCalls (s : Session) : List (ToolEnv × FunctionCall) → Session
  | [] => s
  | (env, fc) :: rest => handleToolCalls (handleToolCall env s fc).1 rest

/-- The messages a list of effects sends on `ToGemini` from spawned goroutines. Among the
session operations only the wind-down alert does so (main.go:537-550). -/
def spawnedToGemini : List Effect → List Wire
  | [] => []
  | Effect.goToGemini m :: rest => m :: spawnedToGemini rest
  | _ :: rest => spawnedToGemini rest

/-- The number of `syncWithDashboard` invocations among a list of effects, in place or in
a spawned goroutine. -/
def syncCount : List Effect → Nat
  | [] => 0
  | Effect.goSync _ :: rest => syncCount rest + 1
  | Effect.sync _ :: rest => syncCount rest + 1
  | _ :: rest => syncCount rest

/-- Does a list of effects cancel the session scope, in place or through the goroutine
that waits for the client queue to drain? -/
def cancelsScope : List Effect → Bool
  | [] => false
  | Effect.cancel :: _ => true
  | Effect.goCancelWhenDrained :: _ => true
  | _ :: rest => cancelsScope rest

/-- Is the operation a `serverContent` message with `turnComplete = true`? -/
def Op.isTurnComplete : Op → Bool
  | Op.serverContent _ sc => sc.TurnComplete
  | _ => false

/-- Is the operation one of the two that cancel the scope in place (the hang-up beacon and
`Cleanup`)? -/
def Op.isForced : Op → Bool
  | Op.terminate => true
  | Op.cleanup _ => true
  | _ => false

/-- The function calls a list of effects hands to `handleToolCall` in spawned goroutines. -/
def spawnedToolCalls : List Effect → List FunctionCall
  | [] => []
  | Effect.goHandleToolCall fc :: rest => fc :: spawnedToolCalls rest
  | _ :: rest => spawnedToolCalls rest

/-- Is the operation `Cleanup`? -/
def Op.isCleanup : Op → Bool
  | Op.cleanup _ => true
  | _ => false

/-- The wind-down message injected for a session (main.go:538-547). -/
def alertMessage (s : Session) : Wire :=
  Wire.clientMessage (userTextMessage
    (if s.AlertInstruction = "" then defaultAlertInstruction else s.AlertInstruction))

/-- The condition of the wind-down alert as the specification words it. -/
def alertCondition (env : TurnEnv) (s : Session) (sc : ServerContent) : Prop :=
  sc.TurnComplete = true ∧ s.AlertSent = false ∧ s.TerminationAlertTime > 0 ∧
    env.elapsed ≥ s.TerminationAlertTime

/-- The tool response sent upstream for a call, with the given response value and
scheduling (main.go:422-428, 435-441, 469-480). -/
def toolReply (fc : FunctionCall) (response : Json) (scheduling : String) : Wire :=
  Wire.clientMessage (toolResponseMessage
    { Name := fc.Name, ID := fc.ID, Response := response, Scheduling := scheduling })

/-- The three tools the executor knows (main.go:417, 433, 452). -/
def toolNames : List String :=
  ["consultar_base_conhecimento", "finalizar_atendimento", "sendLink"]

/-! ## Sample inputs for the tool executor and the policies -/

/-- The upstream call `sendLink` of the specification's scenario 3. -/
def sendLinkCall : FunctionCall :=
  { ID := "t3", Name := "sendLink"
    Args := [("url", Json.str "https://x.y"), ("alias", Json.str "Clique aqui")] }

/-- The upstream call `consultar_base_conhecimento` of the specification's scenario 2. -/
def knowledgeCall : FunctionCall :=
  { ID := "t2", Name := "consultar_base_conhecimento"
    Args := [("query", Json.str "preço"), ("category", Json.str "all")] }

/-- A call of a tool the executor does not know. -/
def weatherCall : FunctionCall :=
  { ID := "t9", Name := "obter_clima", Args := [("cidade", Json.str "Recife")] }

/-- A session with the policy of the specification's scenario 4 (alert after 50 s). -/
def timedSession : Session :=
  { newSession "abc" "aiVoice" with DurationLimit := 60, TerminationAlertTime := 50 }

/-- Readings for a `serverContent` processed 55 s after the session started. -/
def lateTurnEnv : TurnEnv :=
  { userStamp := ⟨"1a2b3c4d", "2025-03-01T10:00:55Z"⟩
    agentStamp := ⟨"5e6f7a8b", "2025-03-01T10:00:55Z"⟩
    elapsed := 55
    syncElapsed := 55 }

/-- A short session: two turn completions, a finalize call between them, then cleanup. -/
def gracefulTrace : List Op :=
  [Op.serverContent demoTurnEnv hearsOi,
   Op.serverContent demoTurnEnv modelEndsTurn,
   Op.toolCall demoToolEnv finalizeCall,
   Op.serverContent lateTurnEnv turnCompleteOnly]

/-- The outcome of the sample trace from the timed session. -/
def gracefulRun : Session × List Effect :=
  (runTrace timedSession gracefulTrace).getD (timedSession, [])

/-- The outcome of the sample trace followed by `Cleanup` after 60 s. -/
def finishedRun : Session × List Effect :=
  (runTrace timedSession (gracefulTrace ++ [Op.cleanup 60])).getD (timedSession, [])

/-! ## Setup builder (`internal/orchestrator/setup.go`) -/

/-- Go type `orchestrator.AIConfig`. The `float64` temperature carries the decimal value
written in the source or read from the database. -/
structure AIConfig where
  VoiceName : String
  LanguageCode : String
  Temperature : Rat
  ThinkingBudget : Int
  EnableAffectiveDialog : Bool
  ProactiveAudio : Bool
  SystemPrompt : String
  DocstringToolKnowledge : String
  DocstringToolTerminate : String
  DocstringToolSendLink : String
  DurationLimit : Int
  TerminationAlertTime : Int
  ProactiveAlertInstruction : String
  deriving DecidableEq, Repr

/-- A connected `*pgxpool.Pool`, as the three queries of the orchestrator observe it:
the configuration row of a client (`QueryRow(...).Scan` of setup.go:161, an error when
there is no row or the query fails), the category names (`Query` of setup.go:174, an error
or the names that scanned), and the values left in `dLimit`, `tAlert`, `pAlert` by the
`Scan` of main.go:290 (the zero values when nothing was scanned). -/
structure Pool where
  configRow : String → Except String AIConfig
  categories : Except String (List String)
  limitsRow : String → Int × Int × String

/-- Function `fetchConfig` (setup.go:149-168): the returned pointer and error. The global
`db` is `none` when `DATABASE_URL` is not configured (main.go:100-105). -/
def fetchConfig (db : Option Pool) (clientName : String) : Option AIConfig × Option String :=
  match db with
  | none => (none, none)
  | some pool =>
    match pool.configRow clientName with
    | Except.error err => (none, some err)
    | Except.ok cfg => (some cfg, none)

/-- Function `fetchAllCategories` (setup.go:170-187): the returned slice and error. -/
def fetchAllCategories (db : Option Pool) : List String × Option String :=
  match db with
  | none => ([], none)
  | some pool =>
    match pool.categories with
    | Except.error err => ([], some err)
    | Except.ok cats => (cats, none)

/-- The default configuration synthesised at setup.go:41-47 and 55-61. -/
def defaultConfig (clientName : String) : AIConfig :=
  { VoiceName := "Aoede"
    LanguageCode := "pt-BR"
    Temperature := 7 / 10
    ThinkingBudget := 0
    EnableAffectiveDialog := false
    ProactiveAudio := false
    SystemPrompt :=
      "Você é o " ++ clientName ++ ", um assistente de voz avançado criado pelo estúdio TkzM."
    DocstringToolKnowledge :=
      "Invoque esta ferramenta sempre que o usuário tiver dúvidas sobre o " ++ clientName ++ "."
    DocstringToolTerminate := ""
    DocstringToolSendLink := ""
    DurationLimit := 0
    TerminationAlertTime := 0
    ProactiveAlertInstruction := "" }

/-- setup.go:30-62: the configuration used, or the error returned early (the branch of
setup.go:49, taken only if `fetchConfig` returned both a configuration and an error). -/
def configOrDefault (fetched : Option AIConfig × Option String) (clientName : String) :
    Except String AIConfig :=
  match fetched.2 with
  | some err =>
    match fetched.1 with
    | none => Except.ok (defaultConfig clientName)
    | some _ => Except.error err
  | none =>
    match fetched.1 with
    | none => Except.ok (defaultConfig clientName)
    | some cfg => Except.ok cfg

/-- setup.go:70-73: the bracketed category list. -/
def catList (cats : List String) : String :=
  cats.foldl (fun acc c => acc ++ ", " ++ c) "all"

/-- The text injected after the knowledge docstring (format string of setup.go:74, and of
dashboard-server/main.go:500), for a given bracketed list. -/
def dynamicInstruction (list : String) : String :=
  "\n\n---\n⚠️ INJEÇÃO DINÂMICA (Categorias Ativas): [" ++ list ++
    "]\nUse o parâmetro 'category' com uma das opções acima para filtrar a busca, ou 'all' para busca global."

/-- setup.go:74: the description of the knowledge tool. -/
def dynamicKnowledgeDoc (cfg : AIConfig) (cats : List String) : String :=
  cfg.DocstringToolKnowledge ++ dynamicInstruction (catList cats)

/-- The preamble of setup.go:78. -/
def affectivePreamble : String :=
  "MODO AFETIVO ATIVADO: Use um tom de voz empático, expressivo e humano. Adapte sua entonação e prosódia às emoções detectadas na conversa.\n\n"

/-- The preamble of setup.go:81. -/
def proactivePreamble : String :=
  "MODO PROATIVO ATIVADO: Seja proativa. Não hesite em tomar a iniciativa, sugerir caminhos ou fazer perguntas para manter a fluidez, especialmente se o usuário parecer em dúvida.\n\n"

/-- setup.go:76-82: the system instruction text. -/
def finalPrompt (cfg : AIConfig) : String :=
  let p1 := if cfg.EnableAffectiveDialog then affectivePreamble ++ cfg.SystemPrompt
    else cfg.SystemPrompt
  if cfg.ProactiveAudio then proactivePreamble ++ p1 else p1

/-- The schema map of a string parameter (setup.go:114-115, 135-136). -/
def stringParam (description : String) : Json :=
  Json.obj [("type", Json.str "STRING"), ("description", Json.str description)]

/-- setup.go:105-143: the three tool declarations. -/
def toolDeclarations (cfg : AIConfig) (cats : List String) : List FunctionDeclaration :=
  [{ Name := "consultar_base_conhecimento"
     Description := dynamicKnowledgeDoc cfg cats
     Parameters := Json.obj
       [("type", Json.str "OBJECT"),
        ("properties", Json.obj
          [("query", stringParam "Termos de busca"),
           ("category", stringParam "Categoria específica ou 'all'")]),
        ("required", Json.arr [Json.str "query", Json.str "category"])]
     Behavior := "" },
   { Name := "finalizar_atendimento"
     Description := cfg.DocstringToolTerminate
     Parameters := Json.obj [("type", Json.str "OBJECT"), ("properties", Json.obj [])]
     Behavior := "" },
   { Name := "sendLink"
     Description := cfg.DocstringToolSendLink
     Parameters := Json.obj
       [("type", Json.str "OBJECT"),
        ("properties", Json.obj
          [("url", stringParam "A URL completa do link"),
           ("alias", stringParam "O texto amigável que será exibido para o link")]),
        ("required", Json.arr [Json.str "url", Json.str "alias"])]
     Behavior := "NON_BLOCKING" }]

/-- setup.go:84-144: the setup payload built from a configuration and the categories. -/
def setupBody (cfg : AIConfig) (cats : List String) : Setup :=
  { Model := "models/gemini-2.5-flash-native-audio-preview-12-2025"
    GenerationConfig := some
      { ResponseModalities := ["AUDIO"]
        SpeechConfig := some
          { VoiceConfig := some { PrebuiltVoiceConfig := some { VoiceName := cfg.VoiceName } }
            LanguageCode := cfg.LanguageCode }
        Temperature := cfg.Temperature
        ThinkingConfig := some { IncludeThoughts := false } }
    SystemInstruction := some
      { Parts := [{ Text := finalPrompt cfg, InlineData := none, Thought := false }] }
    Tools := [{ FunctionDeclarations := toolDeclarations cfg cats }]
    InputAudioTranscription := Json.obj []
    OutputAudioTranscription := Json.obj [] }

/-- Function `GetInitialSetup` (setup.go:29-147): the returned pointer and error. -/
def GetInitialSetup (db : Option Pool) (clientName : String) : Option Setup × Option String :=
  match configOrDefault (fetchConfig db clientName) clientName with
  | Except.error err => (none, some err)
  | Except.ok cfg =>
    let fetched := fetchAllCategories db
    let cats :=
      match fetched.2 with
      | some _ => []
      | none => fetched.1
    (some (setupBody cfg cats), none)

/-- The configuration `GetInitialSetup` ends up with: the fetched row, or the default. -/
def usedConfig (db : Option Pool) (clientName : String) : AIConfig :=
  (fetchConfig db clientName).1.getD (defaultConfig clientName)

/-- The category names `GetInitialSetup` ends up with: those fetched, or none at all when
the fetch fails or there is no database. -/
def usedCategories (db : Option Pool) : List String :=
  match db with
  | none => []
  | some pool =>
    match pool.categories with
    | Except.error _ => []
    | Except.ok cats => cats

/-- The limits query of main.go:290 on the global `db`. With a connected pool the three
locals hold what `Scan` left in them. With a nil pool the method `QueryRow` dereferences
its nil receiver (library `pgxpool`, `(*Pool).QueryRow` calls `p.Acquire`), a run-time
panic that nothing recovers: the call does not return, which is `none`. -/
def queryLimits (db : Option Pool) (clientName : String) : Option (Int × Int × String) :=
  match db with
  | none => none
  | some pool => some (pool.limitsRow clientName)

/-- The downstream reader's environment for a JSON library (the four decoders of `json`)
and the global `db` of the server (main.go:278, 290). -/
def serverReaderEnv (json : ReaderEnv) (db : Option Pool) : ReaderEnv :=
  { json with
    getInitialSetup := fun clientName => (GetInitialSetup db clientName).1
    queryLimits := queryLimits db }

/-! ## Session registry (`handleWebSocket`, main.go:163-214 and 407-412) -/

/-- `activeSessions.Store(key, p)`: the entry of `key` is replaced or added. -/
def registryStore (registry : List (String × Nat)) (key : String) (p : Nat) :
    List (String × Nat) :=
  (key, p) :: registry.filter (fun e => e.1 ≠ key)

/-- `activeSessions.Delete(key)`: the entry of `key`, whatever it points to, is removed. -/
def registryDelete (registry : List (String × Nat)) (key : String) : List (String × Nat) :=
  registry.filter (fun e => e.1 ≠ key)

/-- What one request to `/ws` brings and meets: whether the upgrade and the upstream dial
succeed, the environment variables read, the query parameters, and the fresh UUID. -/
structure AcceptRequest where
  upgradeOk : Bool
  apiKey : String
  instanceClientName : String
  clientQuery : String
  dialOk : Bool
  callId : String
  freshUUID : String
  deriving DecidableEq, Repr

/-- main.go:177-183: the client name of a new session. -/
def acceptClientName (req : AcceptRequest) : String :=
  if req.instanceClientName = "" then
    (if req.clientQuery = "" then "aiVoice" else req.clientQuery)
  else req.instanceClientName

/-- main.go:193-196: the id of a new session. -/
def acceptSessionID (req : AcceptRequest) : String :=
  if req.callId ≠ "" then req.callId else req.freshUUID

/-- The accept path of `handleWebSocket` (main.go:163-214): the world afterwards and the
new `*Session`, `none` when the request is rejected before a session exists. -/
def acceptSession (w : World) (req : AcceptRequest) : World × Option Nat :=
  if !req.upgradeOk then (w, none)
  else if req.apiKey = "" then (w, none)
  else if !req.dialOk then (w, none)
  else
    let s := newSession (acceptSessionID req) (acceptClientName req)
    ({ sessions := w.sessions ++ [s]
       activeSessions := registryStore w.activeSessions s.ID w.sessions.length },
     some w.sessions.length)

/-- The end of `handleWebSocket` for the session `p` (main.go:411-412): delete its id from
the registry, then `Cleanup`. -/
def finishSession (w : World) (p : Nat) (elapsed : Int) : World × List Effect :=
  match w.sessions[p]? with
  | none => (w, [])
  | some s =>
    ({ sessions := w.sessions.set p (Cleanup elapsed s).1
       activeSessions := registryDelete w.activeSessions s.ID },
     (Cleanup elapsed s).2)

/-- The world of a freshly started server. -/
def emptyWorld : World :=
  { sessions := [], activeSessions := [] }

/-! ## The pumps of a session (`handleWebSocket`, main.go:216-257, 259-348, 407-412)

The control states of the upstream writer and of the downstream reader, the length of the
channel between them, the cancellation scope and the watchdog. The other goroutines only
send on `ToGemini`; the upstream writer is its only receiver (main.go:221). -/

/-- main.go:206: `make(chan []byte, 512)`. -/
def toGeminiCapacity : Nat := 512

/-- Where the upstream writer (main.go:218-229) stands. -/
inductive WriterPc where
  | selecting
  | returned
  deriving DecidableEq, Repr

/-- Where the downstream reader (main.go:259-348) stands: in `ReadMessage`, in the send
`s.ToGemini <- b`, or returned. -/
inductive ReaderPc where
  | reading
  | sending
  | returned
  deriving DecidableEq, Repr

/-- The state of the two pumps and of what they share. -/
structure Pumps where
  cancelled : Bool
  socketsClosed : Bool
  queued : Nat
  writer : WriterPc
  reader : ReaderPc
  cleanedUp : Bool
  deriving DecidableEq, Repr

/-- The scope is cancelled from outside the pumps: the beacon (main.go:615) or the
graceful path (main.go:572, 577). -/
def cancelSteps (p : Pumps) : List Pumps :=
  if p.cancelled then [] else [{ p with cancelled := true }]

/-- The watchdog (main.go:232-238): once the scope is cancelled it closes both sockets. -/
def watchdogSteps (p : Pumps) : List Pumps :=
  if p.cancelled && !p.socketsClosed then [{ p with socketsClosed := true }] else []

/-- The upstream writer (main.go:218-229): in its `select` it takes a queued message and
writes it (on a write error it returns the error, which cancels the scope), or it sees
`ctx.Done()` and returns. -/
def writerSteps (p : Pumps) : List Pumps :=
  match p.writer with
  | WriterPc.returned => []
  | WriterPc.selecting =>
    (if 0 < p.queued then
      [{ p with queued := p.queued - 1 },
       { p with queued := p.queued - 1, writer := WriterPc.returned, cancelled := true }]
     else []) ++
    (if p.cancelled then [{ p with writer := WriterPc.returned }] else [])

/-- The downstream reader (main.go:259-348): `ReadMessage` yields a frame to forward, or an
error (always once the sockets are closed), on which it returns and the scope is
cancelled; the send `s.ToGemini <- b` completes only while the channel has room. -/
def readerSteps (p : Pumps) : List Pumps :=
  match p.reader with
  | ReaderPc.returned => []
  | ReaderPc.reading =>
    (if p.socketsClosed then [] else [{ p with reader := ReaderPc.sending }]) ++
      [{ p with reader := ReaderPc.returned, cancelled := true }]
  | ReaderPc.sending =>
    if p.queued < toGeminiCapacity then
      [{ p with queued := p.queued + 1, reader := ReaderPc.reading }]
    else []

/-- main.go:407-412: `g.Wait()` returns once the pumps have returned, then `Cleanup` runs. -/
def waitSteps (p : Pumps) : List Pumps :=
  if p.writer = WriterPc.returned ∧ p.reader = ReaderPc.returned ∧ p.cleanedUp = false then
    [{ p with cleanedUp := true }]
  else []

/-- Every state the pumps can move to in one step. -/
def pumpSteps (p : Pumps) : List Pumps :=
  cancelSteps p ++ watchdogSteps p ++ writerSteps p ++ readerSteps p ++ waitSteps p

/-- The pumps right after the session was accepted. -/
def startPumps : Pumps :=
  { cancelled := false, socketsClosed := false, queued := 0
    writer := WriterPc.selecting, reader := ReaderPc.reading, cleanedUp := false }

/-- The scope is cancelled, the sockets are closed, the writer has returned, and the
reader stands in its send on a full channel. -/
def stuckPumps : Pumps :=
  { cancelled := true, socketsClosed := true, queued := toGeminiCapacity
    writer := WriterPc.returned, reader := ReaderPc.sending, cleanedUp := false }

/-! ## Dashboard configuration editor (`dashboard-server/main.go`, `handleConfig`) -/

/-- The literal with which the pattern of main.go:531 starts. -/
def injectedMarker : String :=
  "\n\n---\n⚠️ INJEÇÃO DINÂMICA"

/-- The text before the leftmost occurrence of `marker`, the whole text when there is
none. -/
def cutAt (marker : List Char) : List Char → List Char
  | [] => []
  | c :: rest => if marker.isPrefixOf (c :: rest) then [] else c :: cutAt marker rest

/-- dashboard-server/main.go:531-532: `re.ReplaceAllString(doc, "")` for the pattern
`(?s)\n\n---\n⚠️ INJEÇÃO DINÂMICA.*`. With the flag `s` the `.*` runs to the end of the
text, so the only match starts at the leftmost occurrence of the literal and everything
from there on is removed. -/
def stripInjected (doc : String) : String :=
  String.mk (cutAt injectedMarker.data doc.data)

/-- dashboard-server/main.go:493-501: the knowledge docstring served by the GET handler. -/
def servedDocstring (stored : String) (cats : List String) : String :=
  stored ++ dynamicInstruction (catList cats)

/-- server/main.go:144: the knowledge docstring seeded by `ensureClientExists` for the
client named by `INSTANCE_CLIENT_NAME`. -/
def seedKnowledgeDoc (clientName : String) : String :=
  "Invoque esta ferramenta sempre que o usuário tiver dúvidas sobre preços, prazos ou funcionalidades específicas do "
    ++ clientName ++ "."

/-- dashboard-server/main.go:205: the knowledge docstring seeded by
`ensureClientOnboarding`. -/
def onboardingKnowledgeDoc : String :=
  "Invoque esta ferramenta sempre que o usuário tiver dúvidas que não estejam no seu System Prompt."

/-- dashboard-server/main.go:530-539: the knowledge docstring the PUT handler writes for a
submitted one. -/
def savedDocstring (submitted : String) : String :=
  stripInjected submitted

/-- The knowledge docstrings the repository stores in `aiVoice_config`, one constructor
per write of the column `docstring_tool_knowledge`: the insert of `ensureClientOnboarding`
(dashboard-server/main.go:195-209), the insert of `ensureClientExists` (server/main.go:
144-156) for a client name, taken to be a single line, and the update of the PUT handler
(dashboard-server/main.go:514-539). -/
inductive StoredDocstring : String → Prop where
  | onboarding : StoredDocstring onboardingKnowledgeDoc
  | seed (clientName : String) (hline : '\n' ∉ clientName.data) :
      StoredDocstring (seedKnowledgeDoc clientName)
  | saved (submitted : String) : StoredDocstring (savedDocstring submitted)

/-! ## Vocabulary for the statements on user text and on the transcript -/

/-- The text of every part of every turn, in order. -/
def partTexts : List Turn → List String
  | [] => []
  | turn :: rest => turn.Parts.map (fun p => p.Text) ++ partTexts rest

/-- The pending user text extended, as the specification words it, with every non-empty
text in order, each preceded by a single space when the text accumulated so far is
non-empty. -/
def extendUserText (pending : String) : List String → String
  | [] => pending
  | t :: rest =>
    if t = "" then extendUserText pending rest
    else extendUserText ((if pending = "" then "" else pending ++ " ") ++ t) rest

/-- An utterance with role `user` or `agent` and a non-empty text. -/
def wellFormed (u : Utterance) : Prop :=
  (u.role = "user" ∨ u.role = "agent") ∧ u.text ≠ ""

/-! ## Sample inputs for the setup, the registry and the editor -/

/-- The frame `{"type":"setup"}`. -/
def setupFrame : Bytes :=
  "\x7b\"type\":\"setup\"\x7d"

/-- The frame `{"type":"clientContent","payload":{"turns":[{"role":"user","parts":[{"text":"bom dia"},{"text":"preciso de ajuda"}]}],"turnComplete":true}}`. -/
def typedFrame : Bytes :=
  "\x7b\"type\":\"clientContent\",\"payload\":\x7b\"turns\":[\x7b\"role\":\"user\",\"parts\":[\x7b\"text\":\"bom dia\"\x7d,\x7b\"text\":\"preciso de ajuda\"\x7d]\x7d],\"turnComplete\":true\x7d\x7d"

/-- The payload of `typedFrame`. -/
def typedPayload : Bytes :=
  "\x7b\"turns\":[\x7b\"role\":\"user\",\"parts\":[\x7b\"text\":\"bom dia\"\x7d,\x7b\"text\":\"preciso de ajuda\"\x7d]\x7d],\"turnComplete\":true\x7d"

/-- The content encoded by `typedPayload`. -/
def typedContent : ClientContent :=
  { Turns := [{ Role := "user"
                Parts := [{ Text := "bom dia", InlineData := none, Thought := false },
                          { Text := "preciso de ajuda", InlineData := none, Thought := false }] }]
    TurnComplete := true }

/-- A JSON library that agrees with `encoding/json` on `setupFrame` (type `setup`, no
payload) and on `typedFrame`. -/
def demoJson : ReaderEnv :=
  { unmarshalEnvelope := fun m =>
      if m = setupFrame then some ⟨"setup", ""⟩
      else if m = typedFrame then some ⟨"clientContent", typedPayload⟩
      else none
    unmarshalAudio := fun _ => none
    unmarshalClientContent := fun m => if m = typedPayload then some typedContent else none
    unmarshalToolResponse := fun _ => none
    getInitialSetup := fun _ => none
    queryLimits := fun _ => some (0, 0, "") }

/-- A request to `/ws?callId=abc` that is accepted. -/
def acceptAbc : AcceptRequest :=
  { upgradeOk := true, apiKey := "key", instanceClientName := "", clientQuery := ""
    dialOk := true, callId := "abc", freshUUID := "5f0c1d2e-0000-4000-8000-000000000001" }

/-- The world after two accepted requests with the same `callId=abc`. -/
def twoAbcWorld : World :=
  (acceptSession (acceptSession emptyWorld acceptAbc).1 acceptAbc).1

/-- A configuration row with both toggles on. -/
def demoConfig : AIConfig :=
  { defaultConfig "aiVoice" with
    EnableAffectiveDialog := true, ProactiveAudio := true, SystemPrompt := "Seja breve."
    DocstringToolKnowledge := "Use para dúvidas." }

/-- A connected database holding `demoConfig` and two categories. -/
def demoPool : Pool :=
  { configRow := fun _ => Except.ok demoConfig
    categories := Except.ok ["precos", "prazos"]
    limitsRow := fun _ => (60, 50, "") }

/-- A turn with a barge-in and a link sent while it streams. -/
def linkTrace : List Op :=
  [Op.serverContent demoTurnEnv hearsOi,
   Op.serverContent demoTurnEnv modelSpeaksUserTalks,
   Op.toolCall demoToolEnv sendLinkCall,
   Op.serverContent demoTurnEnv modelEndsTurn]

/-- The outcome of `linkTrace` from a new session. -/
def linkRun : Session × List Effect :=
  (runTrace (newSession "abc" "aiVoice") linkTrace).getD (newSession "abc" "aiVoice", [])

/-! ## Lemmas on the transcript assembler -/

theorem foldl_addPartText (parts : List Part) (s : Session) :
    parts.foldl addPartText s =
      { s with
        TurnAgentText :=
          ((parts.map (fun p => p.Text)).filter (fun t => t ≠ "")).foldl
            (fun acc t => acc ++ t) s.TurnAgentText } := by
  induction parts generalizing s with
  | nil => rfl
  | cons p ps ih =>
    simp only [List.foldl_cons, ih, addPartText, List.map_cons, List.filter_cons]
    by_cases h : p.Text = "" <;> simp [h]

theorem accumulate_eq (env : TurnEnv) (s : Session) (sc : ServerContent) :
    accumulate env s sc =
      { s with
        Transcript := s.Transcript ++ userFlush env s sc
        TurnUserText :=
          (if sc.ModelTurn.isSome ∧ s.TurnUserText ≠ "" then "" else s.TurnUserText) ++ inputText sc
        TurnAgentText := agentAcc s sc } := by
  obtain ⟨mt, it, ot, tc, intr⟩ := sc
  unfold accumulate addOutputTranscription addModelTurn addInputTranscription flushUserText
    userFlush inputText agentAcc modelTexts outputText
  cases mt <;> cases it <;> cases ot <;> simp only [foldl_addPartText] <;>
    split_ifs <;> simp_all

theorem completeTurn_fst (env : TurnEnv) (s : Session) :
    (completeTurn env s).1 =
      { s with
        Transcript := s.Transcript ++
          (if s.TurnAgentText ≠ "" then
            [⟨env.agentStamp.id, "agent", s.TurnAgentText, env.agentStamp.timestamp⟩] else [])
        TurnAgentText := ""
        AlertSent := s.AlertSent || alertDue env.elapsed s } := by
  obtain ⟨i, c, tr, it, ot, wg, st, ta, tu, stat, dl, tat, ai, sent⟩ := s
  unfold completeTurn flushAgentText alertDue injectAlert
  by_cases h : ta = "" <;> cases sent <;> simp only [h] <;> split_ifs <;> simp_all

theorem processServerContent_fst (env : TurnEnv) (s : Session) (sc : ServerContent) :
    (processServerContent env s sc).1 =
      { s with
        Transcript := s.Transcript ++ userFlush env s sc ++ agentFlush env s sc
        TurnUserText :=
          (if sc.ModelTurn.isSome ∧ s.TurnUserText ≠ "" then "" else s.TurnUserText) ++ inputText sc
        TurnAgentText := if sc.TurnComplete then "" else agentAcc s sc
        AlertSent := s.AlertSent || (sc.TurnComplete && alertDue env.elapsed s) } := by
  unfold processServerContent
  by_cases htc : sc.TurnComplete = true
  · simp only [htc, if_true, completeTurn_fst, accumulate_eq, agentFlush, alertDue]
    by_cases h : agentAcc s sc = "" <;> simp [h]
  · simp only [htc, accumulate_eq, agentFlush]
    simp

theorem appended_processServerContent (env : TurnEnv) (s : Session) (sc : ServerContent) :
    appended s (processServerContent env s sc).1 = userFlush env s sc ++ agentFlush env s sc := by
  simp [appended, processServerContent_fst, List.append_assoc]

theorem withRole_user_flush (env : TurnEnv) (s : Session) (sc : ServerContent) :
    withRole "user" (userFlush env s sc ++ agentFlush env s sc) = userFlush env s sc := by
  unfold withRole userFlush agentFlush
  split_ifs <;> simp

theorem withRole_agent_flush (env : TurnEnv) (s : Session) (sc : ServerContent) :
    withRole "agent" (userFlush env s sc ++ agentFlush env s sc) = agentFlush env s sc := by
  unfold withRole userFlush agentFlush
  split_ifs <;> simp

theorem processServerContent_extends_transcript (env : TurnEnv) (s : Session)
    (sc : ServerContent) : s.Transcript <+: (processServerContent env s sc).1.Transcript := by
  rw [processServerContent_fst]
  exact ⟨userFlush env s sc ++ agentFlush env s sc, by simp [List.append_assoc]⟩

/-! ## Claims on the transcript assembler -/

/-- C3: `processServerContent` appends a user utterance exactly when the message carries a
model turn and user text was pending before the call; in that case the user utterances
appended are exactly one, whose text is the prior pending user text, and afterwards the
pending user text is the input transcription of this same message (empty if none). -/
theorem processServerContent_flushes_user_text (env : TurnEnv) (s : Session)
    (sc : ServerContent) :
    s.Transcript <+: (processServerContent env s sc).1.Transcript ∧
    (withRole "user" (appended s (processServerContent env s sc).1) ≠ [] ↔
      (sc.ModelTurn.isSome ∧ s.TurnUserText ≠ "")) ∧
    ((sc.ModelTurn.isSome ∧ s.TurnUserText ≠ "") →
      withRole "user" (appended s (processServerContent env s sc).1) =
          [⟨env.userStamp.id, "user", s.TurnUserText, env.userStamp.timestamp⟩] ∧
        (processServerContent env s sc).1.TurnUserText = inputText sc) := by
  rw [appended_processServerContent, withRole_user_flush]
  refine ⟨?_, ?_, ?_⟩
  · rw [processServerContent_fst]
    exact ⟨userFlush env s sc ++ agentFlush env s sc, by simp [List.append_assoc]⟩
  · unfold userFlush
    split_ifs with h <;> simp [h]
  · intro h
    rw [processServerContent_fst]
    simp [userFlush, h]

/-- C5: with `agentAcc` the prior pending agent text followed by the non-empty model-turn
part texts in order and by the output transcription, `processServerContent` appends an agent
utterance exactly when `turnComplete` is true and `agentAcc` is non-empty; that utterance is
the only agent utterance appended and its text is `agentAcc`; afterwards the pending agent
text is empty when `turnComplete` is true and equals `agentAcc` when it is false. -/
theorem processServerContent_flushes_agent_text (env : TurnEnv) (s : Session)
    (sc : ServerContent) :
    (withRole "agent" (appended s (processServerContent env s sc).1) ≠ [] ↔
      (sc.TurnComplete = true ∧ agentAcc s sc ≠ "")) ∧
    ((sc.TurnComplete = true ∧ agentAcc s sc ≠ "") →
      withRole "agent" (appended s (processServerContent env s sc).1) =
        [⟨env.agentStamp.id, "agent", agentAcc s sc, env.agentStamp.timestamp⟩]) ∧
    (sc.TurnComplete = true → (processServerContent env s sc).1.TurnAgentText = "") ∧
    (sc.TurnComplete = false → (processServerContent env s sc).1.TurnAgentText = agentAcc s sc) := by
  rw [appended_processServerContent, withRole_agent_flush]
  refine ⟨?_, ?_, ?_, ?_⟩
  · unfold agentFlush
    split_ifs with h <;> simp [h]
  · intro h
    simp [agentFlush, h]
  · intro h
    rw [processServerContent_fst]
    simp [h]
  · intro h
    rw [processServerContent_fst]
    simp [h]

/-- C4 (as stated, refuted): with the user text "oi" pending, a `serverContent` that has
`turnComplete = true` and no model turn appends no user utterance and leaves "oi" pending. -/
theorem turn_complete_alone_keeps_user_text :
    (pendingOi.TurnUserText ≠ "" ∧ turnCompleteOnly.TurnComplete = true ∧
      turnCompleteOnly.ModelTurn = none) ∧
    withRole "user"
      (appended pendingOi (processServerContent demoTurnEnv pendingOi turnCompleteOnly).1) = [] ∧
    (processServerContent demoTurnEnv pendingOi turnCompleteOnly).1.TurnUserText = "oi" := by
  decide

/-- C4 (amended): for every session state whose pending user text is non-empty and every
`serverContent` with `turnComplete = true` and no model turn, `processServerContent`
appends no user utterance and keeps the pending user text, extended by the input
transcription of this message; user text is flushed only by a message carrying a model turn. -/
theorem processServerContent_without_model_turn (env : TurnEnv) (s : Session)
    (sc : ServerContent) (hpending : s.TurnUserText ≠ "") (_hcomplete : sc.TurnComplete = true)
    (hmodel : sc.ModelTurn = none) :
    withRole "user" (appended s (processServerContent env s sc).1) = [] ∧
    (processServerContent env s sc).1.TurnUserText = s.TurnUserText ++ inputText sc ∧
    (processServerContent env s sc).1.TurnUserText ≠ "" := by
  rw [appended_processServerContent, withRole_user_flush, processServerContent_fst]
  refine ⟨by simp [userFlush, hmodel], by simp [hmodel], ?_⟩
  intro h
  apply hpending
  have hdata := congrArg String.data h
  simp only [hmodel, Option.isSome_none, Bool.false_eq_true, false_and, if_false,
    String.data_append] at hdata
  exact String.ext (List.append_eq_nil.mp hdata).1

/-- Witness for `processServerContent_without_model_turn`. -/
theorem processServerContent_without_model_turn_witness :
    (pendingOi.TurnUserText ≠ "" ∧ turnCompleteOnly.TurnComplete = true ∧
      turnCompleteOnly.ModelTurn = none) ∧
    withRole "user"
      (appended pendingOi (processServerContent demoTurnEnv pendingOi turnCompleteOnly).1) = [] ∧
    (processServerContent demoTurnEnv pendingOi turnCompleteOnly).1.TurnUserText =
      pendingOi.TurnUserText ++ inputText turnCompleteOnly ∧
    (processServerContent demoTurnEnv pendingOi turnCompleteOnly).1.TurnUserText ≠ "" :=
  ⟨by decide,
   processServerContent_without_model_turn demoTurnEnv pendingOi turnCompleteOnly
    (by decide) rfl rfl⟩

/-! ## Sequences of messages -/

theorem processAll_transcript (s : Session) (msgs : List (TurnEnv × ServerContent)) :
    (processAll s msgs).Transcript = s.Transcript ++ minted s msgs := by
  induction msgs generalizing s with
  | nil => simp [processAll, minted]
  | cons m rest ih =>
    obtain ⟨env, sc⟩ := m
    rw [processAll, ih, minted, processServerContent_fst]
    simp [List.append_assoc]

theorem appended_processAll (s : Session) (msgs : List (TurnEnv × ServerContent)) :
    appended s (processAll s msgs) = minted s msgs := by
  simp [appended, processAll_transcript]

theorem processAll_append (s : Session) (xs ys : List (TurnEnv × ServerContent)) :
    processAll s (xs ++ ys) = processAll (processAll s xs) ys := by
  induction xs generalizing s with
  | nil => rfl
  | cons m rest ih =>
    obtain ⟨env, sc⟩ := m
    simp [processAll, ih]

theorem minted_append (s : Session) (xs ys : List (TurnEnv × ServerContent)) :
    minted s (xs ++ ys) = minted s xs ++ minted (processAll s xs) ys := by
  induction xs generalizing s with
  | nil => rfl
  | cons m rest ih =>
    obtain ⟨env, sc⟩ := m
    simp [processAll, minted, ih, List.append_assoc]

theorem withRole_append (role : String) (xs ys : List Utterance) :
    withRole role (xs ++ ys) = withRole role xs ++ withRole role ys := by
  simp [withRole]

theorem agent_minted_of_incomplete (s : Session) (msgs : List (TurnEnv × ServerContent))
    (h : ∀ m ∈ msgs, m.2.TurnComplete = false) : withRole "agent" (minted s msgs) = [] := by
  induction msgs generalizing s with
  | nil => rfl
  | cons m rest ih =>
    obtain ⟨env, sc⟩ := m
    have hsc : sc.TurnComplete = false := h (env, sc) (List.mem_cons_self _ _)
    rw [minted, withRole_append, withRole_agent_flush,
      ih _ (fun m hm => h m (List.mem_cons_of_mem _ hm))]
    simp [agentFlush, hsc]

theorem user_minted_le (s : Session) (msgs : List (TurnEnv × ServerContent)) :
    (withRole "user" (minted s msgs)).length ≤
      (msgs.filter (fun m => m.2.ModelTurn.isSome)).length := by
  induction msgs generalizing s with
  | nil => simp [minted, withRole]
  | cons m rest ih =>
    obtain ⟨env, sc⟩ := m
    rw [minted, withRole_append, withRole_user_flush, List.length_append, List.filter_cons]
    have hrest := ih (processServerContent env s sc).1
    by_cases hm : sc.ModelTurn.isSome = true
    · have : (userFlush env s sc).length ≤ 1 := by
        unfold userFlush; split_ifs <;> simp
      simp only [hm, if_true, List.length_cons]
      omega
    · have : (userFlush env s sc).length = 0 := by
        simp [userFlush, hm]
      simp only [hm]
      simpa [this] using hrest

/-- C6 (as stated, refuted): in one turn of three messages, of which only the last has
`turnComplete = true`, two user-role utterances ("oi" and "tudo bem?") are appended: the
user keeps talking while the model turn is streaming. -/
theorem barge_in_turn_appends_two_user_utterances :
    (∀ m ∈ bargeInTurn, m.2.TurnComplete = false) ∧ modelEndsTurn.TurnComplete = true ∧
    (withRole "user"
      (appended (newSession "abc" "aiVoice")
        (processAll (newSession "abc" "aiVoice")
          (bargeInTurn ++ [(demoTurnEnv, modelEndsTurn)])))).map (fun u => u.text)
      = ["oi", "tudo bem?"] := by
  decide

/-- C6 (amended): for every session state and every sequence of `serverContent` messages in
which only the last one has `turnComplete = true`, processing the whole sequence appends at
most one agent-role utterance, and at most one user-role utterance for each message of the
sequence that carries a model turn. -/
theorem processAll_one_turn (s : Session) (msgs : List (TurnEnv × ServerContent))
    (last : TurnEnv × ServerContent) (hinit : ∀ m ∈ msgs, m.2.TurnComplete = false)
    (_hlast : last.2.TurnComplete = true) :
    (withRole "agent" (appended s (processAll s (msgs ++ [last])))).length ≤ 1 ∧
    (withRole "user" (appended s (processAll s (msgs ++ [last])))).length ≤
      ((msgs ++ [last]).filter (fun m => m.2.ModelTurn.isSome)).length := by
  rw [appended_processAll]
  refine ⟨?_, user_minted_le s _⟩
  obtain ⟨env, sc⟩ := last
  rw [minted_append, withRole_append, agent_minted_of_incomplete s msgs hinit, minted]
  simp only [List.nil_append, minted, List.append_nil, withRole_agent_flush]
  unfold agentFlush
  split_ifs <;> simp

/-- Witness for `processAll_one_turn`. -/
theorem processAll_one_turn_witness :
    ((∀ m ∈ bargeInTurn, m.2.TurnComplete = false) ∧ modelEndsTurn.TurnComplete = true) ∧
    (withRole "agent" (appended (newSession "abc" "aiVoice")
      (processAll (newSession "abc" "aiVoice")
        (bargeInTurn ++ [(demoTurnEnv, modelEndsTurn)])))).length ≤ 1 ∧
    (withRole "user" (appended (newSession "abc" "aiVoice")
      (processAll (newSession "abc" "aiVoice")
        (bargeInTurn ++ [(demoTurnEnv, modelEndsTurn)])))).length ≤
      ((bargeInTurn ++ [(demoTurnEnv, modelEndsTurn)]).filter
        (fun m => m.2.ModelTurn.isSome)).length :=
  ⟨by decide,
   processAll_one_turn (newSession "abc" "aiVoice") bargeInTurn (demoTurnEnv, modelEndsTurn)
    (by decide) rfl⟩

/-! ## Lemmas on the tool executor and the downstream reader -/

theorem handleToolCall_fst (env : ToolEnv) (s : Session) (fc : FunctionCall) :
    (handleToolCall env s fc).1 =
      if fc.Name = "finalizar_atendimento" then
        { s with WasGraceful := true, Status := "Completed", ShouldTerm := true }
      else if fc.Name = "sendLink" then
        { s with
          Transcript := s.Transcript ++
            [⟨env.linkStamp.id, "agent",
              "[" ++ argString fc.Args "alias" ++ "](" ++ argString fc.Args "url" ++ ")",
              env.linkStamp.timestamp⟩] }
      else s := by
  unfold handleToolCall knowledgeTool finalizeTool sendLinkTool
  by_cases h1 : fc.Name = "consultar_base_conhecimento" <;>
    by_cases h2 : fc.Name = "finalizar_atendimento" <;>
    by_cases h3 : fc.Name = "sendLink" <;> simp_all

theorem addUserPart_frame (s : Session) (part : Part) :
    addUserPart s part = { s with TurnUserText := (addUserPart s part).TurnUserText } := by
  unfold addUserPart
  split_ifs <;> rfl

theorem foldl_addUserPart_frame (parts : List Part) (s : Session) :
    parts.foldl addUserPart s =
      { s with TurnUserText := (parts.foldl addUserPart s).TurnUserText } := by
  induction parts generalizing s with
  | nil => rfl
  | cons p ps ih =>
    rw [List.foldl_cons, ih (addUserPart s p), addUserPart_frame s p]

theorem noteClientContent_frame (s : Session) (content : ClientContent) :
    noteClientContent s content =
      { s with TurnUserText := (noteClientContent s content).TurnUserText } := by
  unfold noteClientContent
  split_ifs
  · rfl
  · generalize content.Turns = turns
    induction turns generalizing s with
    | nil => rfl
    | cons t ts ih =>
      rw [List.foldl_cons, ih (t.Parts.foldl addUserPart s), foldl_addUserPart_frame t.Parts s]

theorem translate_transcript (env : ReaderEnv) (s s1 : Session) (msg : Envelope)
    (clientMsg : ClientMessage) (h : translate env s msg = some (s1, clientMsg)) :
    s1.Transcript = s.Transcript ∧ s1.Status = s.Status := by
  unfold translate at h
  split_ifs at h
  · cases hq : env.queryLimits s.ClientName with
    | none => simp [hq] at h
    | some lim =>
      obtain ⟨d, t, p⟩ := lim
      simp only [hq, Option.some.injEq, Prod.mk.injEq] at h
      obtain ⟨rfl, -⟩ := h
      exact ⟨rfl, rfl⟩
  · cases ha : env.unmarshalAudio msg.Payload <;> simp only [ha, Option.some.injEq, Prod.mk.injEq] at h <;>
      (obtain ⟨rfl, -⟩ := h; exact ⟨rfl, rfl⟩)
  · cases hc : env.unmarshalClientContent msg.Payload with
    | none =>
      simp only [hc, Option.some.injEq, Prod.mk.injEq] at h
      obtain ⟨rfl, -⟩ := h
      exact ⟨rfl, rfl⟩
    | some content =>
      simp only [hc, Option.some.injEq, Prod.mk.injEq] at h
      obtain ⟨rfl, -⟩ := h
      rw [noteClientContent_frame]
      exact ⟨rfl, rfl⟩
  · cases hr : env.unmarshalToolResponse msg.Payload <;> simp only [hr, Option.some.injEq, Prod.mk.injEq] at h <;>
      (obtain ⟨rfl, -⟩ := h; exact ⟨rfl, rfl⟩)
  · simp only [Option.some.injEq, Prod.mk.injEq] at h
    obtain ⟨rfl, -⟩ := h
    exact ⟨rfl, rfl⟩

theorem downstreamReader_transcript (env : ReaderEnv) (s s1 : Session) (message : Bytes)
    (effects : List Effect) (h : downstreamReader env s message = some (s1, effects)) :
    s1.Transcript = s.Transcript ∧ s1.Status = s.Status := by
  unfold downstreamReader at h
  cases hm : env.unmarshalEnvelope message with
  | none =>
    simp only [hm, Option.some.injEq, Prod.mk.injEq] at h
    obtain ⟨rfl, -⟩ := h
    exact ⟨rfl, rfl⟩
  | some msg =>
    simp only [hm] at h
    cases ht : translate env s msg with
    | none => simp [ht] at h
    | some r =>
      obtain ⟨s2, clientMsg⟩ := r
      simp only [ht, Option.some.injEq, Prod.mk.injEq] at h
      obtain ⟨rfl, -⟩ := h
      exact translate_transcript env s s2 msg clientMsg ht

/-! ## Claims on the session invariants -/

/-- C7: the transcript is append-only. For every session operation (handling a downstream
frame, `handleToolCall`, `processServerContent`, the usage-metadata update, the hang-up
beacon, `Cleanup`) and every state, the transcript before the operation is a prefix of the
transcript after it. -/
theorem transcript_append_only (op : Op) (s s1 : Session) (effects : List Effect)
    (h : op.run s = some (s1, effects)) : s.Transcript <+: s1.Transcript := by
  cases op with
  | downstream env message =>
    rw [(downstreamReader_transcript env s s1 message effects h).1]
  | toolCall env fc =>
    simp only [Op.run, Option.some.injEq] at h
    have hs : s1 = (handleToolCall env s fc).1 := by rw [h]
    rw [hs, handleToolCall_fst]
    split_ifs
    · exact List.prefix_refl _
    · exact List.prefix_append _ _
    · exact List.prefix_refl _
  | serverContent env sc =>
    simp only [Op.run, Option.some.injEq] at h
    have hs : s1 = (processServerContent env s sc).1 := by rw [h]
    rw [hs]
    exact (processServerContent_extends_transcript env s sc)
  | usage um =>
    simp only [Op.run, updateUsage, Option.some.injEq, Prod.mk.injEq] at h
    obtain ⟨rfl, -⟩ := h
    exact List.prefix_refl _
  | terminate =>
    simp only [Op.run, hangUp, Option.some.injEq, Prod.mk.injEq] at h
    obtain ⟨rfl, -⟩ := h
    exact List.prefix_refl _
  | cleanup elapsed =>
    simp only [Op.run, Cleanup, Option.some.injEq, Prod.mk.injEq] at h
    obtain ⟨rfl, -⟩ := h
    split_ifs <;> exact List.prefix_refl _

/-- Witness for `transcript_append_only`. -/
theorem transcript_append_only_witness :
    (Op.serverContent demoTurnEnv modelEndsTurn).run pendingOi =
        some (processServerContent demoTurnEnv pendingOi modelEndsTurn) ∧
      pendingOi.Transcript <+:
        (processServerContent demoTurnEnv pendingOi modelEndsTurn).1.Transcript :=
  ⟨rfl, transcript_append_only (Op.serverContent demoTurnEnv modelEndsTurn) pendingOi _ _ rfl⟩

/-- Every operation other than a downstream `setup` frame whose limits query faults returns. -/
theorem run_isSome (op : Op) (s : Session)
    (h : ∀ env message, op = Op.downstream env message → env.queryLimits s.ClientName ≠ none) :
    (op.run s).isSome = true := by
  cases op with
  | downstream env message =>
    have hq := h env message rfl
    simp only [Op.run, downstreamReader]
    cases hm : env.unmarshalEnvelope message with
    | none => rfl
    | some msg =>
      simp only []
      cases ht : translate env s msg with
      | some r => rfl
      | none =>
        exfalso
        unfold translate at ht
        split_ifs at ht
        · cases hl : env.queryLimits s.ClientName with
          | none => exact hq hl
          | some lim => simp [hl] at ht
        · cases ha : env.unmarshalAudio msg.Payload <;> simp [ha] at ht
        · cases hc : env.unmarshalClientContent msg.Payload <;> simp [hc] at ht
        · cases hr : env.unmarshalToolResponse msg.Payload <;> simp [hr] at ht
  | toolCall env fc => rfl
  | serverContent env sc => rfl
  | usage um => rfl
  | terminate => rfl
  | cleanup elapsed => rfl

/-- What each operation does to the status: only `finalizar_atendimento` and `Cleanup`
write it, the former unconditionally, the latter only from `Active`. -/
theorem status_after_op (op : Op) (s s1 : Session) (effects : List Effect)
    (h : op.run s = some (s1, effects)) :
    s1.Status = s.Status ∨ (s.Status = "Active" ∧ s1.Status = "Interrupted") ∨
      (∃ env fc, op = Op.toolCall env fc ∧ fc.Name = "finalizar_atendimento" ∧
        s1.Status = "Completed") := by
  cases op with
  | downstream env message =>
    exact Or.inl (downstreamReader_transcript env s s1 message effects h).2
  | toolCall env fc =>
    simp only [Op.run, Option.some.injEq] at h
    have hs : s1 = (handleToolCall env s fc).1 := by rw [h]
    rw [hs, handleToolCall_fst]
    by_cases h2 : fc.Name = "finalizar_atendimento"
    · exact Or.inr (Or.inr ⟨env, fc, rfl, h2, by simp [h2]⟩)
    · left
      simp only [h2, if_false]
      split_ifs <;> rfl
  | serverContent env sc =>
    simp only [Op.run, Option.some.injEq] at h
    have hs : s1 = (processServerContent env s sc).1 := by rw [h]
    rw [hs, processServerContent_fst]
    exact Or.inl rfl
  | usage um =>
    simp only [Op.run, updateUsage, Option.some.injEq, Prod.mk.injEq] at h
    obtain ⟨rfl, -⟩ := h
    exact Or.inl rfl
  | terminate =>
    simp only [Op.run, hangUp, Option.some.injEq, Prod.mk.injEq] at h
    obtain ⟨rfl, -⟩ := h
    exact Or.inl rfl
  | cleanup elapsed =>
    simp only [Op.run, Cleanup, Option.some.injEq, Prod.mk.injEq] at h
    obtain ⟨rfl, -⟩ := h
    by_cases ha : s.Status = "Active"
    · exact Or.inr (Or.inl ⟨ha, by simp [ha]⟩)
    · exact Or.inl (by simp [ha])

/-- C8 (failing input): a `finalizar_atendimento` call handled after `Cleanup` has marked
the session `Interrupted` turns the status into `Completed`. -/
theorem finalize_overwrites_interrupted :
    (Cleanup 5 (newSession "abc" "aiVoice")).1.Status = "Interrupted" ∧
    (handleToolCall demoToolEnv (Cleanup 5 (newSession "abc" "aiVoice")).1 finalizeCall).1.Status
      = "Completed" := by
  decide

/-- C9: `Cleanup` sets the status to `Interrupted` when it was `Active` and leaves it
unchanged otherwise, so the status afterwards is never `Active`; it changes no other field;
and its effects are: cancel, close both sockets, then one dashboard sync carrying the
resulting status, the whole transcript and the current token counters. -/
theorem Cleanup_status_and_sync (elapsed : Int) (s : Session) :
    (Cleanup elapsed s).1 =
      { s with Status := if s.Status = "Active" then "Interrupted" else s.Status } ∧
    (Cleanup elapsed s).1.Status ≠ "Active" ∧
    (Cleanup elapsed s).2 =
      [Effect.cancel, Effect.closeClientConn, Effect.closeGeminiConn,
       Effect.sync
        { sessionID := s.ID
          clientName := s.ClientName
          transcript := s.Transcript
          duration := elapsed
          inputTokens := s.InputTokens
          outputTokens := s.OutputTokens
          status := (Cleanup elapsed s).1.Status }] := by
  unfold Cleanup
  by_cases h : s.Status = "Active"
  · simp [h]
  · simp [h]

/-- C10 (failing input): session `abc` is registered and the agent has already called
`finalizar_atendimento`; the beacon `POST /terminate?sessionId=abc` finds it and cancels it,
yet after `Cleanup` its status is `Completed`, and the terminal sync reports `Completed`. -/
theorem beacon_after_finalize_stays_completed :
    (handleTerminate finalizedWorld "POST" "abc").cancelled = some 0 ∧
    (handleTerminate finalizedWorld "POST" "abc").statusCode = 200 ∧
    (handleTerminate finalizedWorld "POST" "abc").world.sessions.map
        (fun s => (s.WasGraceful, (Cleanup 7 s).1.Status)) = [(false, "Completed")] ∧
    (handleTerminate finalizedWorld "POST" "abc").world.sessions.map
        (fun s => (syncCalls (Cleanup 7 s).2).map (fun a => a.status)) = [["Completed"]] := by
  decide

/-! ## Claims on the downstream reader -/

/-- C1 (as stated, refuted): the frame `{"type":"ping","payload":{}}` decodes as an envelope
whose type is none of the seven known ones, and the reader puts nothing on `ToGemini`. -/
theorem unknown_type_is_dropped :
    demoReaderEnv.unmarshalEnvelope pingFrame = some ⟨"ping", "\x7b\x7d"⟩ ∧
    "ping" ∉ knownTypes ∧
    (downstreamReader demoReaderEnv pendingOi pingFrame).map (fun r => sentToGemini r.2)
      = some [] := by
  refine ⟨by decide, by decide, rfl⟩

/-- C1 (amended): for every downstream frame that decodes as an envelope whose type is none
of `setup`, `realtimeInput`, `realtime_input`, `clientContent`, `client_content`,
`toolResponse`, `tool_response`, the downstream reader enqueues nothing (neither upstream
nor to the client) and leaves the session unchanged: the frame is dropped. -/
theorem downstreamReader_unknown_type (env : ReaderEnv) (s : Session) (message : Bytes)
    (msg : Envelope) (hdecode : env.unmarshalEnvelope message = some msg)
    (hunknown : msg.MsgType ∉ knownTypes) :
    downstreamReader env s message = some (s, []) := by
  simp only [knownTypes, List.mem_cons, List.mem_singleton, List.not_mem_nil, not_or,
    or_false] at hunknown
  obtain ⟨h1, h2, h3, h4, h5, h6, h7⟩ := hunknown
  simp [downstreamReader, hdecode, translate, h1, h2, h3, h4, h5, h6, h7, forwardTranslated,
    emptyClientMessage]

/-- Witness for `downstreamReader_unknown_type`. -/
theorem downstreamReader_unknown_type_witness :
    (demoReaderEnv.unmarshalEnvelope pingFrame = some ⟨"ping", "\x7b\x7d"⟩ ∧
      "ping" ∉ knownTypes) ∧
    downstreamReader demoReaderEnv (newSession "abc" "aiVoice") pingFrame
      = some (newSession "abc" "aiVoice", []) :=
  ⟨⟨by decide, by decide⟩,
   downstreamReader_unknown_type demoReaderEnv (newSession "abc" "aiVoice") pingFrame
    ⟨"ping", "\x7b\x7d"⟩ (by decide) (by decide)⟩

/-- C2: for every downstream frame whose outer envelope fails to decode, the downstream
reader enqueues exactly that frame's raw bytes on `ToGemini`, performs no other effect, and
leaves every session field unchanged. -/
theorem downstreamReader_malformed (env : ReaderEnv) (s : Session) (message : Bytes)
    (hdecode : env.unmarshalEnvelope message = none) :
    downstreamReader env s message = some (s, [Effect.toGemini (Wire.raw message)]) := by
  simp [downstreamReader, hdecode]

/-- Witness for `downstreamReader_malformed`. -/
theorem downstreamReader_malformed_witness :
    demoReaderEnv.unmarshalEnvelope "not json" = none ∧
    downstreamReader demoReaderEnv pendingOi "not json"
      = some (pendingOi, [Effect.toGemini (Wire.raw "not json")]) :=
  ⟨by decide, downstreamReader_malformed demoReaderEnv pendingOi "not json" (by decide)⟩


/-! ## Lemmas on effects -/

theorem handleToolCall_snd (env : ToolEnv) (s : Session) (fc : FunctionCall) :
    (handleToolCall env s fc).2 =
      if fc.Name = "consultar_base_conhecimento" then
        [Effect.toGemini (toolReply fc
          (Json.obj (callRAG env (argString fc.Args "query") (argString fc.Args "category")).1) "")]
      else if fc.Name = "finalizar_atendimento" then
        [Effect.toGemini (toolReply fc (Json.obj [("status", Json.str "success")]) "")]
      else if fc.Name = "sendLink" then
        [Effect.toClient (Wire.object
            (linkBubble (argString fc.Args "url") (argString fc.Args "alias"))),
         Effect.toGemini (toolReply fc
            (Json.obj [("status", Json.str "success"),
              ("message", Json.str "Link exibido no chat com sucesso.")]) "SILENT")]
      else [] := by
  unfold handleToolCall knowledgeTool finalizeTool sendLinkTool toolReply
  by_cases h1 : fc.Name = "consultar_base_conhecimento" <;>
    by_cases h2 : fc.Name = "finalizar_atendimento" <;>
    by_cases h3 : fc.Name = "sendLink" <;> simp_all

theorem completeTurn_snd (env : TurnEnv) (s : Session) :
    (completeTurn env s).2 =
      (if alertDue env.elapsed s = true then [Effect.goToGemini (alertMessage s)] else []) ++
        [checkpoint env (completeTurn env s).1] ++ gracefulShutdown s := by
  obtain ⟨i, c, tr, it, ot, wg, st, ta, tu, stat, dl, tat, ai, sent⟩ := s
  unfold completeTurn flushAgentText alertDue injectAlert alertMessage gracefulShutdown
  by_cases h : ta = "" <;> cases sent <;> simp only [h] <;> split_ifs <;> simp_all

theorem processServerContent_snd (env : TurnEnv) (s : Session) (sc : ServerContent) :
    (processServerContent env s sc).2 =
      if sc.TurnComplete = true then
        (if alertDue env.elapsed s = true then [Effect.goToGemini (alertMessage s)] else []) ++
          [checkpoint env (processServerContent env s sc).1] ++ gracefulShutdown s
      else [] := by
  unfold processServerContent
  by_cases htc : sc.TurnComplete = true
  · simp only [htc, if_true, completeTurn_snd, accumulate_eq, alertDue, alertMessage,
      gracefulShutdown]
  · simp only [htc]
    simp


/-! ## Claims on the tool executor -/

/-- C11: for every session state and every call named `finalizar_atendimento` with id X,
`handleToolCall` sets `WasGraceful`, `Status = "Completed"` and `ShouldTerm` and changes
no other field; its only effect is one tool response sent upstream, with id X, name
`finalizar_atendimento` and response `{status: "success"}`; nothing is sent to the client
and the scope is not cancelled. -/
theorem handleToolCall_finalize (env : ToolEnv) (s : Session) (fc : FunctionCall)
    (hname : fc.Name = "finalizar_atendimento") :
    handleToolCall env s fc =
      ({ s with WasGraceful := true, Status := "Completed", ShouldTerm := true },
       [Effect.toGemini (Wire.clientMessage
          { Setup := none, ClientContent := none, RealtimeInput := none
            ToolResponse := some
              { FunctionResponses :=
                  [{ ID := fc.ID, Name := "finalizar_atendimento"
                     Response := Json.obj [("status", Json.str "success")]
                     Scheduling := "" }] } })]) ∧
    sentToClient (handleToolCall env s fc).2 = [] ∧
    cancelsScope (handleToolCall env s fc).2 = false := by
  have h : handleToolCall env s fc =
      ((handleToolCall env s fc).1, (handleToolCall env s fc).2) := rfl
  rw [handleToolCall_fst, handleToolCall_snd] at h
  simp only [hname, if_true, toolReply, toolResponseMessage] at h
  have h2 : ("finalizar_atendimento" = "consultar_base_conhecimento") = False := by decide
  simp only [h2, if_false] at h
  rw [h]
  exact ⟨rfl, rfl, rfl⟩

/-- Witness for `handleToolCall_finalize`. -/
theorem handleToolCall_finalize_witness :
    finalizeCall.Name = "finalizar_atendimento" ∧
    (handleToolCall demoToolEnv pendingOi finalizeCall).1 =
      { pendingOi with WasGraceful := true, Status := "Completed", ShouldTerm := true } :=
  ⟨rfl, congrArg Prod.fst (handleToolCall_finalize demoToolEnv pendingOi finalizeCall rfl).1⟩

/-- C12: handling `finalizar_atendimento` is idempotent on the session state. For every
state and every non-empty sequence of calls all named `finalizar_atendimento` (whatever
their ids), the session after handling them all equals the session after handling the
first one alone; in particular `WasGraceful`, `Status`, `ShouldTerm`, the transcript and
both pending texts agree. -/
theorem handleToolCalls_finalize_idempotent (s : Session) (first : ToolEnv × FunctionCall)
    (more : List (ToolEnv × FunctionCall))
    (hnames : ∀ c ∈ first :: more, c.2.Name = "finalizar_atendimento") :
    handleToolCalls s (first :: more) = (handleToolCall first.1 s first.2).1 ∧
    (handleToolCall first.1 s first.2).1 =
      { s with WasGraceful := true, Status := "Completed", ShouldTerm := true } := by
  have hfirst : (handleToolCall first.1 s first.2).1 =
      { s with WasGraceful := true, Status := "Completed", ShouldTerm := true } := by
    rw [handleToolCall_fst, if_pos (hnames first (List.mem_cons_self _ _))]
  refine ⟨?_, hfirst⟩
  obtain ⟨env, fc⟩ := first
  rw [handleToolCalls, hfirst]
  have hmore : ∀ c ∈ more, c.2.Name = "finalizar_atendimento" :=
    fun c hc => hnames c (List.mem_cons_of_mem _ hc)
  clear hfirst hnames
  induction more with
  | nil => rfl
  | cons c rest ih =>
    obtain ⟨env2, fc2⟩ := c
    rw [handleToolCalls, handleToolCall_fst, if_pos (hmore (env2, fc2) (List.mem_cons_self _ _))]
    exact ih (fun c hc => hmore c (List.mem_cons_of_mem _ hc))

/-- Witness for `handleToolCalls_finalize_idempotent`. -/
theorem handleToolCalls_finalize_idempotent_witness :
    (∀ c ∈ [(demoToolEnv, finalizeCall), (demoToolEnv, { finalizeCall with ID := "t7" }),
        (demoToolEnv, finalizeCall)], c.2.Name = "finalizar_atendimento") ∧
    handleToolCalls pendingOi
        [(demoToolEnv, finalizeCall), (demoToolEnv, { finalizeCall with ID := "t7" }),
          (demoToolEnv, finalizeCall)]
      = (handleToolCall demoToolEnv pendingOi finalizeCall).1 :=
  ⟨by simp [finalizeCall],
   (handleToolCalls_finalize_idempotent pendingOi (demoToolEnv, finalizeCall)
      [(demoToolEnv, { finalizeCall with ID := "t7" }), (demoToolEnv, finalizeCall)]
      (by simp [finalizeCall])).1⟩

theorem spawnedToolCalls_append (xs ys : List Effect) :
    spawnedToolCalls (xs ++ ys) = spawnedToolCalls xs ++ spawnedToolCalls ys := by
  induction xs with
  | nil => rfl
  | cons e rest ih => cases e <;> simp [spawnedToolCalls, ih]

theorem spawnedToolCalls_map (fcs : List FunctionCall) :
    spawnedToolCalls (fcs.map Effect.goHandleToolCall) = fcs := by
  induction fcs with
  | nil => rfl
  | cons fc rest ih => simp [spawnedToolCalls, ih]

theorem spawnedToolCalls_processServerContent (env : TurnEnv) (s : Session)
    (sc : ServerContent) : spawnedToolCalls (processServerContent env s sc).2 = [] := by
  rw [processServerContent_snd]
  unfold gracefulShutdown checkpoint
  split_ifs <;> simp [spawnedToolCalls]

/-- C13 (as stated, refuted): for the call `{id: "t9", name: "obter_clima"}`, a name the
executor does not know, `handleToolCall` sends nothing upstream. -/
theorem unknown_tool_gets_no_response :
    weatherCall.Name ∉ toolNames ∧
    sentToGemini (handleToolCall demoToolEnv pendingOi weatherCall).2 = [] := by
  refine ⟨by decide, rfl⟩

/-- C13 (amended): every function call of an upstream `toolCall` is handed to
`handleToolCall`, in order; for a call `{id: X, name, args}` whose name is one of
`consultar_base_conhecimento`, `finalizar_atendimento`, `sendLink`, `handleToolCall` sends
upstream exactly one tool response, whose function response has id X and the same name;
for any other name it does nothing at all. -/
theorem handleToolCall_response_id (env : ToolEnv) (s : Session) (fc : FunctionCall) :
    (fc.Name ∈ toolNames →
      ∃ response scheduling,
        sentToGemini (handleToolCall env s fc).2 =
          [Wire.clientMessage
            { Setup := none, ClientContent := none, RealtimeInput := none
              ToolResponse := some
                { FunctionResponses :=
                    [{ ID := fc.ID, Name := fc.Name, Response := response
                       Scheduling := scheduling }] } }]) ∧
    (fc.Name ∉ toolNames → handleToolCall env s fc = (s, [])) ∧
    (∀ (unmarshal : Bytes → Option ServerMessage) (tenv : TurnEnv) (message : Bytes)
        (serverMsg : ServerMessage) (tc : ToolCall),
      unmarshal message = some serverMsg → serverMsg.ToolCall = some tc →
        spawnedToolCalls (upstreamReader unmarshal tenv s message).2 = tc.FunctionCalls) := by
  refine ⟨?_, ?_, ?_⟩
  · intro hmem
    rw [handleToolCall_snd]
    simp only [toolNames, List.mem_cons, List.mem_singleton, List.not_mem_nil, or_false] at hmem
    by_cases h1 : fc.Name = "consultar_base_conhecimento"
    · exact ⟨Json.obj (callRAG env (argString fc.Args "query")
          (argString fc.Args "category")).1, "",
        by simp [h1, sentToGemini, toolReply, toolResponseMessage]⟩
    · by_cases h2 : fc.Name = "finalizar_atendimento"
      · exact ⟨Json.obj [("status", Json.str "success")], "",
          by simp [h2, sentToGemini, toolReply, toolResponseMessage]⟩
      · have h3 : fc.Name = "sendLink" := by
          rcases hmem with h | h | h
          · exact absurd h h1
          · exact absurd h h2
          · exact h
        exact ⟨Json.obj [("status", Json.str "success"),
            ("message", Json.str "Link exibido no chat com sucesso.")], "SILENT",
          by simp [h3, sentToGemini, toolReply, toolResponseMessage]⟩
  · intro hmem
    simp only [toolNames, List.mem_cons, List.mem_singleton, List.not_mem_nil, or_false,
      not_or] at hmem
    obtain ⟨h1, h2, h3⟩ := hmem
    have h : handleToolCall env s fc =
        ((handleToolCall env s fc).1, (handleToolCall env s fc).2) := rfl
    rw [handleToolCall_fst, handleToolCall_snd] at h
    simpa [h1, h2, h3] using h
  · intro unmarshal tenv message serverMsg tc hdec htc
    unfold upstreamReader
    simp only [hdec, htc]
    rw [spawnedToolCalls_append, spawnedToolCalls_append, spawnedToolCalls_append,
      spawnedToolCalls_map]
    have hr : spawnedToolCalls
        (match serverMsg.ServerContent with
          | some sc => processServerContent tenv s sc
          | none => (s, [])).2 = [] := by
      cases serverMsg.ServerContent with
      | none => rfl
      | some sc => exact spawnedToolCalls_processServerContent tenv s sc
    rw [hr]
    split_ifs <;> simp [spawnedToolCalls]

/-- C14: for every outcome of the search HTTP call, `callRAG` returns a map with exactly
one key: `content`, holding the decoded hits, with a nil error, when the call returned
status 200 and the body decoded; `error`, holding a string, with a non-nil error, in every
other case. For a call named `consultar_base_conhecimento`, `handleToolCall` leaves the
session unchanged and its only effect is one tool response sent upstream carrying that map
and the id of the call (so nothing is cancelled). -/
theorem callRAG_and_knowledge_tool (env : ToolEnv) (s : Session) (fc : FunctionCall)
    (hname : fc.Name = "consultar_base_conhecimento") :
    (∀ query category,
      (∀ hits, env.httpGet (searchURL env query category)
            = HttpReply.response 200 (Except.ok hits) →
          callRAG env query category = ([("content", hitsJson hits)], none)) ∧
      ((∀ hits, env.httpGet (searchURL env query category)
            ≠ HttpReply.response 200 (Except.ok hits)) →
          ∃ msg, (callRAG env query category).1 = [("error", Json.str msg)] ∧
            (callRAG env query category).2 ≠ none)) ∧
    handleToolCall env s fc =
      (s,
       [Effect.toGemini (Wire.clientMessage
          { Setup := none, ClientContent := none, RealtimeInput := none
            ToolResponse := some
              { FunctionResponses :=
                  [{ ID := fc.ID, Name := "consultar_base_conhecimento"
                     Response := Json.obj
                       (callRAG env (argString fc.Args "query")
                         (argString fc.Args "category")).1
                     Scheduling := "" }] } })]) := by
  refine ⟨?_, ?_⟩
  · intro query category
    unfold callRAG
    refine ⟨?_, ?_⟩
    · intro hits h
      simp [h]
    · intro h
      cases hreply : env.httpGet (searchURL env query category) with
      | failed err => exact ⟨"Erro de conexão", rfl, by simp⟩
      | response statusCode body =>
        by_cases hs : statusCode = 200
        · subst hs
          cases body with
          | error err => exact ⟨"Erro ao processar", by simp, by simp⟩
          | ok hits => exact absurd hreply (h hits)
        · exact ⟨"Erro na busca", by simp [hs], by simp [hs]⟩
  · have h : handleToolCall env s fc =
        ((handleToolCall env s fc).1, (handleToolCall env s fc).2) := rfl
    rw [handleToolCall_fst, handleToolCall_snd] at h
    have h2 : ("consultar_base_conhecimento" = "finalizar_atendimento") = False := by decide
    have h3 : ("consultar_base_conhecimento" = "sendLink") = False := by decide
    simp only [hname, if_true, h2, h3, if_false, toolReply, toolResponseMessage] at h
    rw [h]

/-- Witness for `callRAG_and_knowledge_tool`. -/
theorem callRAG_and_knowledge_tool_witness :
    knowledgeCall.Name = "consultar_base_conhecimento" ∧
    (handleToolCall demoToolEnv pendingOi knowledgeCall).1 = pendingOi ∧
    sentToGemini (handleToolCall demoToolEnv pendingOi knowledgeCall).2 =
      [toolReply knowledgeCall (Json.obj [("error", Json.str "Erro de conexão")]) ""] :=
  ⟨rfl,
   congrArg Prod.fst (callRAG_and_knowledge_tool demoToolEnv pendingOi knowledgeCall rfl).2,
   rfl⟩

/-- C15: for every session state and every `sendLink` call with id X, with `u` and `a` the
strings stored under `url` and `alias` in its arguments (the empty string when the key is
missing or holds a value that is not a string), `handleToolCall` appends exactly one
utterance, with role `agent` and text `[a](u)`, changes no other session field, and its
effects are exactly: one client message `{type: "link_bubble", payload: {url: u, alias: a}}`
and one upstream tool response with id X, status `success` and scheduling `SILENT`. -/
theorem handleToolCall_sendLink (env : ToolEnv) (s : Session) (fc : FunctionCall)
    (hname : fc.Name = "sendLink") :
    handleToolCall env s fc =
      ({ s with
         Transcript := s.Transcript ++
           [{ id := env.linkStamp.id, role := "agent"
              text := "[" ++ argString fc.Args "alias" ++ "](" ++ argString fc.Args "url" ++ ")"
              timestamp := env.linkStamp.timestamp }] },
       [Effect.toClient (Wire.object (Json.obj
          [("type", Json.str "link_bubble"),
           ("payload", Json.obj
              [("url", Json.str (argString fc.Args "url")),
               ("alias", Json.str (argString fc.Args "alias"))])])),
        Effect.toGemini (Wire.clientMessage
          { Setup := none, ClientContent := none, RealtimeInput := none
            ToolResponse := some
              { FunctionResponses :=
                  [{ ID := fc.ID, Name := "sendLink"
                     Response := Json.obj
                       [("status", Json.str "success"),
                        ("message", Json.str "Link exibido no chat com sucesso.")]
                     Scheduling := "SILENT" }] } })]) ∧
    (∀ (args : List (String × Json)) (key : String),
      (args.lookup key = none → argString args key = "") ∧
      (∀ v, args.lookup key = some (Json.str v) → argString args key = v) ∧
      (∀ j, args.lookup key = some j → (∀ v, j ≠ Json.str v) → argString args key = "")) := by
  refine ⟨?_, ?_⟩
  · have h : handleToolCall env s fc =
        ((handleToolCall env s fc).1, (handleToolCall env s fc).2) := rfl
    rw [handleToolCall_fst, handleToolCall_snd] at h
    have h1 : ("sendLink" = "consultar_base_conhecimento") = False := by decide
    have h2 : ("sendLink" = "finalizar_atendimento") = False := by decide
    simp only [hname, if_true, h1, h2, if_false, toolReply, toolResponseMessage,
      linkBubble] at h
    rw [h]
  · intro args key
    unfold argString
    refine ⟨?_, ?_, ?_⟩
    · intro h
      simp [h]
    · intro v h
      simp [h]
    · intro j h hj
      rw [h]
      cases j with
      | str v => exact absurd rfl (hj v)
      | null => rfl
      | bool b => rfl
      | num n => rfl
      | arr items => rfl
      | obj fields => rfl

/-- Witness for `handleToolCall_sendLink`. -/
theorem handleToolCall_sendLink_witness :
    sendLinkCall.Name = "sendLink" ∧
    (appended pendingOi (handleToolCall demoToolEnv pendingOi sendLinkCall).1).map
        (fun u => (u.role, u.text)) = [("agent", "[Clique aqui](https://x.y)")] ∧
    (handleToolCall demoToolEnv pendingOi sendLinkCall).1 =
      { pendingOi with
        Transcript := pendingOi.Transcript ++
          [{ id := demoToolEnv.linkStamp.id, role := "agent"
             text := "[" ++ argString sendLinkCall.Args "alias" ++ "]("
               ++ argString sendLinkCall.Args "url" ++ ")"
             timestamp := demoToolEnv.linkStamp.timestamp }] } :=
  ⟨rfl, by decide,
   congrArg Prod.fst (handleToolCall_sendLink demoToolEnv pendingOi sendLinkCall rfl).1⟩

/-! ## Lemmas on the effects of `processServerContent` -/

theorem spawnedToGemini_append (xs ys : List Effect) :
    spawnedToGemini (xs ++ ys) = spawnedToGemini xs ++ spawnedToGemini ys := by
  induction xs with
  | nil => rfl
  | cons e rest ih => cases e <;> simp [spawnedToGemini, ih]

theorem syncCount_append (xs ys : List Effect) :
    syncCount (xs ++ ys) = syncCount xs + syncCount ys := by
  induction xs with
  | nil => simp [syncCount]
  | cons e rest ih => cases e <;> simp [syncCount, ih] <;> omega

theorem cancelsScope_append (xs ys : List Effect) :
    cancelsScope (xs ++ ys) = (cancelsScope xs || cancelsScope ys) := by
  induction xs with
  | nil => simp [cancelsScope]
  | cons e rest ih => cases e <;> simp [cancelsScope, ih]

theorem alertDue_iff (elapsed : Int) (s : Session) :
    alertDue elapsed s = true ↔
      (s.AlertSent = false ∧ s.TerminationAlertTime > 0 ∧ elapsed ≥ s.TerminationAlertTime) := by
  unfold alertDue
  cases s.AlertSent <;> simp

theorem spawned_processServerContent (env : TurnEnv) (s : Session) (sc : ServerContent) :
    spawnedToGemini (processServerContent env s sc).2 =
      if sc.TurnComplete = true ∧ alertDue env.elapsed s = true then [alertMessage s] else [] := by
  rw [processServerContent_snd]
  unfold gracefulShutdown checkpoint
  by_cases htc : sc.TurnComplete = true <;> by_cases hd : alertDue env.elapsed s = true <;>
    by_cases hst : s.ShouldTerm = true <;> simp [htc, hd, hst, spawnedToGemini]

theorem sent_processServerContent (env : TurnEnv) (s : Session) (sc : ServerContent) :
    sentToGemini (processServerContent env s sc).2 = [] ∧
    sentToClient (processServerContent env s sc).2 =
      if sc.TurnComplete = true ∧ s.ShouldTerm = true then [Wire.object sessionTerminated]
      else [] := by
  rw [processServerContent_snd]
  unfold gracefulShutdown checkpoint
  by_cases htc : sc.TurnComplete = true <;> by_cases hd : alertDue env.elapsed s = true <;>
    by_cases hst : s.ShouldTerm = true <;> simp [htc, hd, hst, sentToGemini, sentToClient]

theorem syncCount_processServerContent (env : TurnEnv) (s : Session) (sc : ServerContent) :
    syncCount (processServerContent env s sc).2 = if sc.TurnComplete = true then 1 else 0 := by
  rw [processServerContent_snd]
  unfold gracefulShutdown checkpoint
  by_cases htc : sc.TurnComplete = true <;> by_cases hd : alertDue env.elapsed s = true <;>
    by_cases hst : s.ShouldTerm = true <;> simp [htc, hd, hst, syncCount]

theorem cancelsScope_processServerContent (env : TurnEnv) (s : Session) (sc : ServerContent) :
    cancelsScope (processServerContent env s sc).2 = (sc.TurnComplete && s.ShouldTerm) := by
  rw [processServerContent_snd]
  unfold gracefulShutdown checkpoint
  by_cases htc : sc.TurnComplete = true <;> by_cases hd : alertDue env.elapsed s = true <;>
    by_cases hst : s.ShouldTerm = true <;> simp [htc, hd, hst, cancelsScope]

/-! ## Claim on the duration policy -/

/-- C16: for every session state, `serverContent` and clock reading, `processServerContent`
injects the wind-down alert exactly when `turnComplete` is true, `AlertSent` is false,
`TerminationAlertTime > 0` and the whole seconds elapsed are at least
`TerminationAlertTime`. When it does, `AlertSent` becomes true and exactly one message is
sent upstream (from a spawned goroutine): a `clientContent` with one user-role turn whose
single part is `AlertInstruction`, or the fixed default when that is empty, and
`turnComplete = true`. Otherwise `AlertSent` is unchanged and nothing is sent upstream. In
particular nothing is injected when `TerminationAlertTime` is 0. -/
theorem processServerContent_alert (env : TurnEnv) (s : Session) (sc : ServerContent) :
    (alertCondition env s sc →
      (processServerContent env s sc).1.AlertSent = true ∧
      spawnedToGemini (processServerContent env s sc).2 =
        [Wire.clientMessage
          { Setup := none
            ClientContent := some
              { Turns :=
                  [{ Role := "user"
                     Parts :=
                       [{ Text :=
                            if s.AlertInstruction = "" then
                              "SISTEMA: O tempo de atendimento está acabando. Finalize gentilmente a conversa agora."
                            else s.AlertInstruction
                          InlineData := none, Thought := false }] }]
                TurnComplete := true }
            RealtimeInput := none
            ToolResponse := none }]) ∧
    (¬ alertCondition env s sc →
      (processServerContent env s sc).1.AlertSent = s.AlertSent ∧
      spawnedToGemini (processServerContent env s sc).2 = []) ∧
    sentToGemini (processServerContent env s sc).2 = [] ∧
    (s.TerminationAlertTime = 0 → spawnedToGemini (processServerContent env s sc).2 = []) := by
  have hiff : alertCondition env s sc ↔
      (sc.TurnComplete = true ∧ alertDue env.elapsed s = true) := by
    unfold alertCondition
    rw [alertDue_iff]
  refine ⟨?_, ?_, (sent_processServerContent env s sc).1, ?_⟩
  · intro h
    have h2 := hiff.mp h
    rw [spawned_processServerContent, if_pos h2, processServerContent_fst]
    refine ⟨by simp [h2.1, h2.2], rfl⟩
  · intro h
    have h2 : ¬ (sc.TurnComplete = true ∧ alertDue env.elapsed s = true) := fun h3 => h (hiff.mpr h3)
    rw [spawned_processServerContent, if_neg h2, processServerContent_fst]
    refine ⟨?_, rfl⟩
    by_cases htc : sc.TurnComplete = true
    · have hd : alertDue env.elapsed s = false := by
        cases hd : alertDue env.elapsed s
        · rfl
        · exact absurd ⟨htc, hd⟩ h2
      simp [hd]
    · simp [htc]
  · intro hz
    have h2 : ¬ (sc.TurnComplete = true ∧ alertDue env.elapsed s = true) := by
      rintro ⟨-, hd⟩
      have := (alertDue_iff env.elapsed s).mp hd
      omega
    rw [spawned_processServerContent, if_neg h2]

/-! ## Lemmas on single operations -/

theorem translate_flags (env : ReaderEnv) (s s1 : Session) (msg : Envelope)
    (clientMsg : ClientMessage) (h : translate env s msg = some (s1, clientMsg)) :
    s1.AlertSent = s.AlertSent ∧ s1.ShouldTerm = s.ShouldTerm := by
  unfold translate at h
  split_ifs at h
  · cases hq : env.queryLimits s.ClientName with
    | none => simp [hq] at h
    | some lim =>
      obtain ⟨d, t, p⟩ := lim
      simp only [hq, Option.some.injEq, Prod.mk.injEq] at h
      obtain ⟨rfl, -⟩ := h
      exact ⟨rfl, rfl⟩
  · cases ha : env.unmarshalAudio msg.Payload <;>
      simp only [ha, Option.some.injEq, Prod.mk.injEq] at h <;>
      (obtain ⟨rfl, -⟩ := h; exact ⟨rfl, rfl⟩)
  · cases hc : env.unmarshalClientContent msg.Payload with
    | none =>
      simp only [hc, Option.some.injEq, Prod.mk.injEq] at h
      obtain ⟨rfl, -⟩ := h
      exact ⟨rfl, rfl⟩
    | some content =>
      simp only [hc, Option.some.injEq, Prod.mk.injEq] at h
      obtain ⟨rfl, -⟩ := h
      rw [noteClientContent_frame]
      exact ⟨rfl, rfl⟩
  · cases hr : env.unmarshalToolResponse msg.Payload <;>
      simp only [hr, Option.some.injEq, Prod.mk.injEq] at h <;>
      (obtain ⟨rfl, -⟩ := h; exact ⟨rfl, rfl⟩)
  · simp only [Option.some.injEq, Prod.mk.injEq] at h
    obtain ⟨rfl, -⟩ := h
    exact ⟨rfl, rfl⟩

theorem downstreamReader_effects (env : ReaderEnv) (s s1 : Session) (message : Bytes)
    (effects : List Effect) (h : downstreamReader env s message = some (s1, effects)) :
    (effects = [] ∨ ∃ w, effects = [Effect.toGemini w]) ∧
    s1.AlertSent = s.AlertSent ∧ s1.ShouldTerm = s.ShouldTerm := by
  unfold downstreamReader at h
  cases hm : env.unmarshalEnvelope message with
  | none =>
    simp only [hm, Option.some.injEq, Prod.mk.injEq] at h
    obtain ⟨rfl, rfl⟩ := h
    exact ⟨Or.inr ⟨_, rfl⟩, rfl, rfl⟩
  | some msg =>
    simp only [hm] at h
    cases ht : translate env s msg with
    | none => simp [ht] at h
    | some r =>
      obtain ⟨s2, clientMsg⟩ := r
      simp only [ht, Option.some.injEq, Prod.mk.injEq] at h
      obtain ⟨rfl, rfl⟩ := h
      refine ⟨?_, translate_flags env s s2 msg clientMsg ht⟩
      unfold forwardTranslated
      split_ifs
      · exact Or.inr ⟨_, rfl⟩
      · exact Or.inl rfl

theorem handleToolCall_quiet (env : ToolEnv) (s : Session) (fc : FunctionCall) :
    spawnedToGemini (handleToolCall env s fc).2 = [] ∧
    syncCount (handleToolCall env s fc).2 = 0 ∧
    cancelsScope (handleToolCall env s fc).2 = false ∧
    (handleToolCall env s fc).1.AlertSent = s.AlertSent := by
  rw [handleToolCall_fst, handleToolCall_snd]
  by_cases h1 : fc.Name = "consultar_base_conhecimento" <;>
    by_cases h2 : fc.Name = "finalizar_atendimento" <;>
    by_cases h3 : fc.Name = "sendLink" <;>
    simp [h1, h2, h3, spawnedToGemini, syncCount, cancelsScope]

/-- The alert is injected exactly when `AlertSent` goes from false to true. -/
theorem alert_step (op : Op) (s s1 : Session) (effects : List Effect)
    (h : op.run s = some (s1, effects)) :
    (spawnedToGemini effects).length + s.AlertSent.toNat = s1.AlertSent.toNat := by
  cases op with
  | downstream env message =>
    obtain ⟨he, ha, -⟩ := downstreamReader_effects env s s1 message effects h
    rcases he with rfl | ⟨w, rfl⟩ <;> simp [spawnedToGemini, ha]
  | toolCall env fc =>
    simp only [Op.run, Option.some.injEq] at h
    have hs : s1 = (handleToolCall env s fc).1 := by rw [h]
    have he : effects = (handleToolCall env s fc).2 := by rw [h]
    obtain ⟨h1, -, -, h4⟩ := handleToolCall_quiet env s fc
    rw [hs, he, h1, h4]
    simp
  | serverContent env sc =>
    simp only [Op.run, Option.some.injEq] at h
    have hs : s1 = (processServerContent env s sc).1 := by rw [h]
    have he : effects = (processServerContent env s sc).2 := by rw [h]
    rw [hs, he, spawned_processServerContent, processServerContent_fst]
    by_cases htc : sc.TurnComplete = true
    · cases hd : alertDue env.elapsed s
      · simp [htc]
      · have := ((alertDue_iff env.elapsed s).mp hd).1
        simp [htc, this]
    · simp [htc]
  | usage um =>
    simp only [Op.run, updateUsage, Option.some.injEq, Prod.mk.injEq] at h
    obtain ⟨rfl, rfl⟩ := h
    simp [spawnedToGemini]
  | terminate =>
    simp only [Op.run, hangUp, Option.some.injEq, Prod.mk.injEq] at h
    obtain ⟨rfl, rfl⟩ := h
    simp [spawnedToGemini]
  | cleanup elapsed =>
    simp only [Op.run, Cleanup, Option.some.injEq, Prod.mk.injEq] at h
    obtain ⟨rfl, rfl⟩ := h
    split_ifs <;> simp [spawnedToGemini]

/-- One sync per turn completion and one per `Cleanup`, none otherwise. -/
theorem sync_step (op : Op) (s s1 : Session) (effects : List Effect)
    (h : op.run s = some (s1, effects)) :
    syncCount effects = op.isTurnComplete.toNat + op.isCleanup.toNat := by
  cases op with
  | downstream env message =>
    obtain ⟨he, -, -⟩ := downstreamReader_effects env s s1 message effects h
    rcases he with rfl | ⟨w, rfl⟩ <;> simp [syncCount, Op.isTurnComplete, Op.isCleanup]
  | toolCall env fc =>
    simp only [Op.run, Option.some.injEq] at h
    have he : effects = (handleToolCall env s fc).2 := by rw [h]
    rw [he, (handleToolCall_quiet env s fc).2.1]
    simp [Op.isTurnComplete, Op.isCleanup]
  | serverContent env sc =>
    simp only [Op.run, Option.some.injEq] at h
    have he : effects = (processServerContent env s sc).2 := by rw [h]
    rw [he, syncCount_processServerContent]
    cases htc : sc.TurnComplete <;> simp [Op.isTurnComplete, Op.isCleanup, htc]
  | usage um =>
    simp only [Op.run, updateUsage, Option.some.injEq, Prod.mk.injEq] at h
    obtain ⟨-, rfl⟩ := h
    simp [syncCount, Op.isTurnComplete, Op.isCleanup]
  | terminate =>
    simp only [Op.run, hangUp, Option.some.injEq, Prod.mk.injEq] at h
    obtain ⟨-, rfl⟩ := h
    simp [syncCount, Op.isTurnComplete, Op.isCleanup]
  | cleanup elapsed =>
    simp only [Op.run, Cleanup, Option.some.injEq, Prod.mk.injEq] at h
    obtain ⟨-, rfl⟩ := h
    simp [syncCount, Op.isTurnComplete, Op.isCleanup]

/-- Outside the beacon and `Cleanup`, the scope is cancelled only by a turn completion
processed while `ShouldTerm` is set. -/
theorem cancel_step (op : Op) (s s1 : Session) (effects : List Effect)
    (h : op.run s = some (s1, effects)) (hc : cancelsScope effects = true) :
    op.isForced = true ∨ (op.isTurnComplete = true ∧ s.ShouldTerm = true) := by
  cases op with
  | downstream env message =>
    obtain ⟨he, -, -⟩ := downstreamReader_effects env s s1 message effects h
    rcases he with rfl | ⟨w, rfl⟩ <;> simp [cancelsScope] at hc
  | toolCall env fc =>
    simp only [Op.run, Option.some.injEq] at h
    have he : effects = (handleToolCall env s fc).2 := by rw [h]
    rw [he, (handleToolCall_quiet env s fc).2.2.1] at hc
    simp at hc
  | serverContent env sc =>
    simp only [Op.run, Option.some.injEq] at h
    have he : effects = (processServerContent env s sc).2 := by rw [h]
    rw [he, cancelsScope_processServerContent] at hc
    right
    simpa [Op.isTurnComplete] using hc
  | usage um =>
    simp only [Op.run, updateUsage, Option.some.injEq, Prod.mk.injEq] at h
    obtain ⟨-, rfl⟩ := h
    simp [cancelsScope] at hc
  | terminate => exact Or.inl rfl
  | cleanup elapsed => exact Or.inl rfl

/-- `ShouldTerm` is set only by a `finalizar_atendimento` call. -/
theorem shouldTerm_step (op : Op) (s s1 : Session) (effects : List Effect)
    (h : op.run s = some (s1, effects)) (hset : s1.ShouldTerm = true) :
    s.ShouldTerm = true ∨ ∃ env fc, op = Op.toolCall env fc ∧ fc.Name = "finalizar_atendimento" := by
  cases op with
  | downstream env message =>
    obtain ⟨-, -, hst⟩ := downstreamReader_effects env s s1 message effects h
    exact Or.inl (hst ▸ hset)
  | toolCall env fc =>
    simp only [Op.run, Option.some.injEq] at h
    have hs : s1 = (handleToolCall env s fc).1 := by rw [h]
    rw [hs, handleToolCall_fst] at hset
    by_cases h2 : fc.Name = "finalizar_atendimento"
    · exact Or.inr ⟨env, fc, rfl, h2⟩
    · left
      simp only [h2, if_false] at hset
      split_ifs at hset <;> exact hset
  | serverContent env sc =>
    simp only [Op.run, Option.some.injEq] at h
    have hs : s1 = (processServerContent env s sc).1 := by rw [h]
    rw [hs, processServerContent_fst] at hset
    exact Or.inl hset
  | usage um =>
    simp only [Op.run, updateUsage, Option.some.injEq, Prod.mk.injEq] at h
    obtain ⟨rfl, -⟩ := h
    exact Or.inl hset
  | terminate =>
    simp only [Op.run, hangUp, Option.some.injEq, Prod.mk.injEq] at h
    obtain ⟨rfl, -⟩ := h
    exact Or.inl hset
  | cleanup elapsed =>
    simp only [Op.run, Cleanup, Option.some.injEq, Prod.mk.injEq] at h
    obtain ⟨rfl, -⟩ := h
    left
    split_ifs at hset <;> exact hset

/-! ## Lemmas on traces -/

theorem runTrace_cons (s s2 : Session) (op : Op) (rest : List Op) (effects : List Effect)
    (h : runTrace s (op :: rest) = some (s2, effects)) :
    ∃ s1 e1 e2, op.run s = some (s1, e1) ∧ runTrace s1 rest = some (s2, e2) ∧
      effects = e1 ++ e2 := by
  rw [runTrace] at h
  cases hop : op.run s with
  | none => simp [hop] at h
  | some r =>
    obtain ⟨s1, e1⟩ := r
    simp only [hop] at h
    cases hrest : runTrace s1 rest with
    | none => simp [hrest] at h
    | some r2 =>
      obtain ⟨s3, e2⟩ := r2
      simp only [hrest, Option.some.injEq, Prod.mk.injEq] at h
      obtain ⟨rfl, rfl⟩ := h
      exact ⟨s1, e1, e2, rfl, hrest, rfl⟩

theorem alert_trace (ops : List Op) (s s2 : Session) (effects : List Effect)
    (h : runTrace s ops = some (s2, effects)) :
    (spawnedToGemini effects).length + s.AlertSent.toNat = s2.AlertSent.toNat := by
  induction ops generalizing s effects with
  | nil =>
    simp only [runTrace, Option.some.injEq, Prod.mk.injEq] at h
    obtain ⟨rfl, rfl⟩ := h
    simp [spawnedToGemini]
  | cons op rest ih =>
    obtain ⟨s1, e1, e2, hop, hrest, rfl⟩ := runTrace_cons s s2 op rest effects h
    have h1 := alert_step op s s1 e1 hop
    have h2 := ih s1 e2 hrest
    rw [spawnedToGemini_append, List.length_append]
    omega

theorem sync_trace (ops : List Op) (s s2 : Session) (effects : List Effect)
    (h : runTrace s ops = some (s2, effects)) :
    syncCount effects =
      (ops.filter Op.isTurnComplete).length + (ops.filter Op.isCleanup).length := by
  induction ops generalizing s effects with
  | nil =>
    simp only [runTrace, Option.some.injEq, Prod.mk.injEq] at h
    obtain ⟨rfl, rfl⟩ := h
    simp [syncCount]
  | cons op rest ih =>
    obtain ⟨s1, e1, e2, hop, hrest, rfl⟩ := runTrace_cons s s2 op rest effects h
    have h1 := sync_step op s s1 e1 hop
    have h2 := ih s1 e2 hrest
    rw [syncCount_append, h1, h2, List.filter_cons, List.filter_cons]
    cases op.isTurnComplete <;> cases op.isCleanup <;> simp <;> omega

/-- Along a trace without beacon or `Cleanup`, a cancellation needs a turn completion. -/
theorem cancel_needs_turn_complete (ops : List Op) (s s2 : Session) (effects : List Effect)
    (hgraceful : ∀ op ∈ ops, op.isForced = false)
    (h : runTrace s ops = some (s2, effects)) (hc : cancelsScope effects = true) :
    ∃ mid tenv sc after, ops = mid ++ Op.serverContent tenv sc :: after ∧
      sc.TurnComplete = true := by
  induction ops generalizing s effects with
  | nil =>
    simp only [runTrace, Option.some.injEq, Prod.mk.injEq] at h
    obtain ⟨-, rfl⟩ := h
    simp [cancelsScope] at hc
  | cons op rest ih =>
    obtain ⟨s1, e1, e2, hop, hrest, rfl⟩ := runTrace_cons s s2 op rest effects h
    rw [cancelsScope_append, Bool.or_eq_true] at hc
    rcases hc with hc1 | hc2
    · rcases cancel_step op s s1 e1 hop hc1 with hf | ⟨htc, -⟩
      · rw [hgraceful op (List.mem_cons_self _ _)] at hf
        exact absurd hf (by decide)
      · cases op with
        | serverContent tenv sc => exact ⟨[], tenv, sc, rest, rfl, htc⟩
        | downstream env message => simp [Op.isTurnComplete] at htc
        | toolCall env fc => simp [Op.isTurnComplete] at htc
        | usage um => simp [Op.isTurnComplete] at htc
        | terminate => simp [Op.isTurnComplete] at htc
        | cleanup elapsed => simp [Op.isTurnComplete] at htc
    · obtain ⟨mid, tenv, sc, after, hsplit, htc⟩ :=
        ih s1 e2 (fun o ho => hgraceful o (List.mem_cons_of_mem _ ho)) hrest hc2
      exact ⟨op :: mid, tenv, sc, after, by rw [hsplit]; rfl, htc⟩

/-- Along a trace without beacon or `Cleanup` that starts with `ShouldTerm` unset, a
cancellation needs a `finalizar_atendimento` call followed, later, by a turn completion. -/
theorem cancel_needs_finalize_then_turn_complete (ops : List Op) (s s2 : Session)
    (effects : List Effect) (hunset : s.ShouldTerm = false)
    (hgraceful : ∀ op ∈ ops, op.isForced = false)
    (h : runTrace s ops = some (s2, effects)) (hc : cancelsScope effects = true) :
    ∃ before env fc mid tenv sc after,
      ops = before ++ Op.toolCall env fc :: (mid ++ Op.serverContent tenv sc :: after) ∧
      fc.Name = "finalizar_atendimento" ∧ sc.TurnComplete = true := by
  induction ops generalizing s effects with
  | nil =>
    simp only [runTrace, Option.some.injEq, Prod.mk.injEq] at h
    obtain ⟨-, rfl⟩ := h
    simp [cancelsScope] at hc
  | cons op rest ih =>
    obtain ⟨s1, e1, e2, hop, hrest, rfl⟩ := runTrace_cons s s2 op rest effects h
    have hrestGraceful : ∀ o ∈ rest, o.isForced = false :=
      fun o ho => hgraceful o (List.mem_cons_of_mem _ ho)
    have hc2 : cancelsScope e2 = true := by
      rw [cancelsScope_append, Bool.or_eq_true] at hc
      rcases hc with hc1 | hc2
      · rcases cancel_step op s s1 e1 hop hc1 with hf | ⟨-, hst⟩
        · rw [hgraceful op (List.mem_cons_self _ _)] at hf
          exact absurd hf (by decide)
        · rw [hunset] at hst
          exact absurd hst (by decide)
      · exact hc2
    cases hst1 : s1.ShouldTerm with
    | false =>
      obtain ⟨before, env, fc, mid, tenv, sc, after, hsplit, hn, htc⟩ :=
        ih s1 e2 hst1 hrestGraceful hrest hc2
      exact ⟨op :: before, env, fc, mid, tenv, sc, after, by rw [hsplit]; rfl, hn, htc⟩
    | true =>
      rcases shouldTerm_step op s s1 e1 hop hst1 with hst | ⟨env, fc, rfl, hn⟩
      · rw [hunset] at hst
        exact absurd hst (by decide)
      · obtain ⟨mid, tenv, sc, after, hsplit, htc⟩ :=
          cancel_needs_turn_complete rest s1 s2 e2 hrestGraceful hrest hc2
        exact ⟨[], env, fc, mid, tenv, sc, after, by rw [hsplit]; rfl, hn, htc⟩

/-! ## Claims on the policies over a whole session -/

/-- C17: over every sequence of session operations (downstream frames including repeated
`setup`, tool calls, `serverContent` messages with any clock readings, usage updates, the
beacon, `Cleanup`) from any state, `AlertSent` never goes from true back to false, and the
wind-down alert is sent upstream at most once; it is not sent at all when `AlertSent` was
already true. -/
theorem alert_sent_at_most_once (ops : List Op) (s s2 : Session) (effects : List Effect)
    (h : runTrace s ops = some (s2, effects)) :
    (s.AlertSent = true → s2.AlertSent = true) ∧
    (spawnedToGemini effects).length ≤ 1 ∧
    (s.AlertSent = true → spawnedToGemini effects = []) := by
  have hsum := alert_trace ops s s2 effects h
  have hle : s2.AlertSent.toNat ≤ 1 := Bool.toNat_le _
  refine ⟨?_, by omega, ?_⟩
  · intro hs
    rw [hs] at hsum
    cases h2 : s2.AlertSent
    · rw [h2] at hsum
      simp at hsum
    · rfl
  · intro hs
    rw [hs] at hsum
    have hlen : (spawnedToGemini effects).length = 0 := by
      simp only [Bool.toNat_true] at hsum
      omega
    exact List.length_eq_zero.mp hlen

/-- Witness for `alert_sent_at_most_once`: the graceful session of the sample trace, in
which the alert is injected once. -/
theorem alert_sent_at_most_once_witness :
    runTrace timedSession gracefulTrace = some (gracefulRun.1, gracefulRun.2) ∧
    (spawnedToGemini gracefulRun.2).length = 1 ∧
    ((timedSession.AlertSent = true → gracefulRun.1.AlertSent = true) ∧
     (spawnedToGemini gracefulRun.2).length ≤ 1 ∧
     (timedSession.AlertSent = true → spawnedToGemini gracefulRun.2 = [])) :=
  ⟨rfl, by decide,
   alert_sent_at_most_once gracefulTrace timedSession gracefulRun.1 gracefulRun.2 rfl⟩

/-- C18: for every session trace that ends with `Cleanup` (and has no other `Cleanup`), the
number of `syncWithDashboard` invocations equals the number of processed `serverContent`
messages with `turnComplete = true`, plus one. Operation by operation: a `serverContent`
with `turnComplete = true` triggers exactly one sync, `Cleanup` exactly one, every other
operation none. -/
theorem sync_count_of_session (ops : List Op) (elapsed : Int) (s s2 : Session)
    (effects : List Effect) (honce : ∀ op ∈ ops, op.isCleanup = false)
    (h : runTrace s (ops ++ [Op.cleanup elapsed]) = some (s2, effects)) :
    syncCount effects = (ops.filter Op.isTurnComplete).length + 1 ∧
    (∀ (op : Op) (t t1 : Session) (e : List Effect), op.run t = some (t1, e) →
      syncCount e = op.isTurnComplete.toNat + op.isCleanup.toNat) := by
  refine ⟨?_, fun op t t1 e he => sync_step op t t1 e he⟩
  rw [sync_trace _ s s2 effects h, List.filter_append, List.filter_append,
    List.length_append, List.length_append]
  have hnone : ops.filter Op.isCleanup = [] := by
    rw [List.filter_eq_nil_iff]
    intro op hop
    simp [honce op hop]
  rw [hnone]
  simp [Op.isTurnComplete, Op.isCleanup]

/-- Witness for `sync_count_of_session`: two turn completions and `Cleanup`, three syncs. -/
theorem sync_count_of_session_witness :
    (∀ op ∈ gracefulTrace, op.isCleanup = false) ∧
    runTrace timedSession (gracefulTrace ++ [Op.cleanup 60]) = some (finishedRun.1, finishedRun.2) ∧
    syncCount finishedRun.2 = 3 ∧
    syncCount finishedRun.2 = (gracefulTrace.filter Op.isTurnComplete).length + 1 :=
  ⟨by simp [gracefulTrace, Op.isCleanup], rfl, by decide,
   (sync_count_of_session gracefulTrace 60 timedSession finishedRun.1 finishedRun.2
      (by simp [gracefulTrace, Op.isCleanup]) rfl).1⟩

/-- C19: for every argument list of `syncWithDashboard`, with a nil transcript or not, the
posted payload has exactly the keys `callId`, `clientName`, `newTranscript`,
`durationSeconds`, `inputTokens`, `outputTokens`, `status`, and its `newTranscript` is the
array of the utterances: `[]` for a nil or empty transcript, never `null`. The same holds
for the request of every sync the session issues (checkpoint or terminal). -/
theorem syncPayload_shape (getenv : String → String) (sessionID clientName : String)
    (transcript : Option (List Utterance)) (duration inputTokens outputTokens : Int)
    (status : String) :
    (syncWithDashboard getenv sessionID clientName transcript duration inputTokens
        outputTokens status).body =
      Json.obj (syncPayload sessionID clientName transcript duration inputTokens
        outputTokens status) ∧
    (syncPayload sessionID clientName transcript duration inputTokens outputTokens
        status).map Prod.fst =
      ["callId", "clientName", "newTranscript", "durationSeconds", "inputTokens",
       "outputTokens", "status"] ∧
    (syncPayload sessionID clientName transcript duration inputTokens outputTokens
        status).lookup "newTranscript" =
      some (Json.arr ((transcript.getD []).map utteranceJson)) ∧
    (syncPayload sessionID clientName none duration inputTokens outputTokens
        status).lookup "newTranscript" = some (Json.arr []) ∧
    (syncPayload sessionID clientName (some []) duration inputTokens outputTokens
        status).lookup "newTranscript" = some (Json.arr []) ∧
    (∀ a : SyncArgs,
      (a.post getenv).body =
        Json.obj (syncPayload a.sessionID a.clientName (some a.transcript) a.duration
          a.inputTokens a.outputTokens a.status)) := by
  refine ⟨rfl, ?_, ?_, rfl, rfl, fun a => rfl⟩
  · cases transcript <;> rfl
  · cases transcript <;> rfl

/-- C20: for every session state and `serverContent`, `processServerContent` sends
`{type: "session_terminated"}` to the client, and cancels the scope (through the goroutine
that waits for the client queue to drain), exactly when `turnComplete` is true and
`ShouldTerm` is set; `handleToolCall` never cancels the scope. Hence along any sequence of
operations without beacon or `Cleanup`, started with `ShouldTerm` unset, a cancellation
implies that a `finalizar_atendimento` call was handled and that a `serverContent` with
`turnComplete = true` was processed after it. -/
theorem graceful_cancellation (env : TurnEnv) (s : Session) (sc : ServerContent) :
    sentToClient (processServerContent env s sc).2 =
      (if sc.TurnComplete = true ∧ s.ShouldTerm = true then
        [Wire.object (Json.obj [("type", Json.str "session_terminated")])]
      else []) ∧
    (cancelsScope (processServerContent env s sc).2 = true ↔
      (sc.TurnComplete = true ∧ s.ShouldTerm = true)) ∧
    (∀ (tenv : ToolEnv) (fc : FunctionCall), cancelsScope (handleToolCall tenv s fc).2 = false) ∧
    (∀ (ops : List Op) (s2 : Session) (effects : List Effect),
      s.ShouldTerm = false → (∀ op ∈ ops, op.isForced = false) →
      runTrace s ops = some (s2, effects) → cancelsScope effects = true →
      ∃ before tenv fc mid env2 sc2 after,
        ops = before ++ Op.toolCall tenv fc :: (mid ++ Op.serverContent env2 sc2 :: after) ∧
        fc.Name = "finalizar_atendimento" ∧ sc2.TurnComplete = true) := by
  refine ⟨(sent_processServerContent env s sc).2, ?_,
    fun tenv fc => (handleToolCall_quiet tenv s fc).2.2.1,
    fun ops s2 effects hunset hgraceful h hc =>
      cancel_needs_finalize_then_turn_complete ops s s2 effects hunset hgraceful h hc⟩
  rw [cancelsScope_processServerContent]
  simp

/-- The sample graceful trace does cancel the scope, after the finalize call. -/
theorem graceful_trace_cancels :
    timedSession.ShouldTerm = false ∧ (∀ op ∈ gracefulTrace, op.isForced = false) ∧
    cancelsScope gracefulRun.2 = true := by
  refine ⟨rfl, by simp [gracefulTrace, Op.isForced], by decide⟩


/-! ## Lemmas on the setup builder -/

theorem GetInitialSetup_eq (db : Option Pool) (clientName : String) :
    GetInitialSetup db clientName =
      (some (setupBody (usedConfig db clientName) (usedCategories db)), none) := by
  unfold GetInitialSetup usedConfig usedCategories configOrDefault fetchConfig
    fetchAllCategories
  cases db with
  | none => rfl
  | some pool =>
    simp only []
    cases hrow : pool.configRow clientName <;> cases hcats : pool.categories <;> simp

theorem finalPrompt_eq (cfg : AIConfig) :
    finalPrompt cfg =
      (if cfg.ProactiveAudio = true then proactivePreamble else "") ++
        ((if cfg.EnableAffectiveDialog = true then affectivePreamble else "") ++
          cfg.SystemPrompt) := by
  unfold finalPrompt
  cases cfg.ProactiveAudio <;> cases cfg.EnableAffectiveDialog <;> simp

theorem catList_snoc (cats : List String) (c : String) :
    catList (cats ++ [c]) = catList cats ++ ", " ++ c := by
  simp [catList, List.foldl_append]

/-! ## Claims on the setup builder -/

/-- C21: for every database state and client name, the system instruction of the setup
returned by `GetInitialSetup` is one part whose text is: the proactive preamble if
`ProactiveAudio` is true, then the affective preamble if `EnableAffectiveDialog` is true,
then the configured base system prompt. With both toggles on the proactive preamble comes
first, with both off the text is the base prompt, and the base prompt is always a suffix. -/
theorem GetInitialSetup_system_instruction (db : Option Pool) (clientName : String) :
    (GetInitialSetup db clientName).1.map (fun setup => setup.SystemInstruction.map
        (fun i => i.Parts.map (fun p => p.Text))) =
      some (some [finalPrompt (usedConfig db clientName)]) ∧
    (∀ cfg : AIConfig,
      finalPrompt cfg =
        (if cfg.ProactiveAudio = true then proactivePreamble else "") ++
          ((if cfg.EnableAffectiveDialog = true then affectivePreamble else "") ++
            cfg.SystemPrompt) ∧
      (cfg.ProactiveAudio = true → cfg.EnableAffectiveDialog = true →
        finalPrompt cfg = proactivePreamble ++ (affectivePreamble ++ cfg.SystemPrompt)) ∧
      (cfg.ProactiveAudio = false → cfg.EnableAffectiveDialog = false →
        finalPrompt cfg = cfg.SystemPrompt) ∧
      (∃ preamble, finalPrompt cfg = preamble ++ cfg.SystemPrompt)) := by
  refine ⟨by rw [GetInitialSetup_eq]; rfl, ?_⟩
  intro cfg
  refine ⟨finalPrompt_eq cfg, ?_, ?_, ?_⟩
  · intro h1 h2
    rw [finalPrompt_eq, h1, h2]
    rfl
  · intro h1 h2
    rw [finalPrompt_eq, h1, h2]
    simp
  · refine ⟨(if cfg.ProactiveAudio = true then proactivePreamble else "") ++
      (if cfg.EnableAffectiveDialog = true then affectivePreamble else ""), ?_⟩
    rw [finalPrompt_eq, String.append_assoc]

/-- C22: for every database state and client name, the first tool declared by
`GetInitialSetup` is `consultar_base_conhecimento` and its description is the configured
knowledge docstring followed by the fixed dynamic suffix, whose bracketed list is `all`
followed by `, c` for each fetched category `c` in fetched order; the categories are empty
when there is no database or the fetch fails. So the configured docstring is a prefix of
the description and `all` is always listed, first. -/
theorem GetInitialSetup_knowledge_description (db : Option Pool) (clientName : String) :
    (GetInitialSetup db clientName).1.map (fun setup => setup.Tools.map
        (fun t => (t.FunctionDeclarations.map (fun d => (d.Name, d.Description))).head?)) =
      some [some ("consultar_base_conhecimento",
        (usedConfig db clientName).DocstringToolKnowledge ++
          ("\n\n---\n⚠️ INJEÇÃO DINÂMICA (Categorias Ativas): [" ++
            catList (usedCategories db) ++
            "]\nUse o parâmetro 'category' com uma das opções acima para filtrar a busca, ou 'all' para busca global."))] ∧
    (catList [] = "all" ∧
      (∀ (cats : List String) (c : String), catList (cats ++ [c]) = catList cats ++ ", " ++ c) ∧
      (∀ cats : List String, ∃ rest, catList cats = "all" ++ rest)) ∧
    (usedCategories none = [] ∧
      (∀ (pool : Pool) (err : String), pool.categories = Except.error err →
        usedCategories (some pool) = []) ∧
      (∀ (pool : Pool) (cats : List String), pool.categories = Except.ok cats →
        usedCategories (some pool) = cats)) := by
  refine ⟨by rw [GetInitialSetup_eq]; rfl, ⟨rfl, catList_snoc, ?_⟩, rfl, ?_, ?_⟩
  · intro cats
    induction cats using List.reverseRecOn with
    | nil => exact ⟨"", rfl⟩
    | append_singleton cats c ih =>
      obtain ⟨rest, hrest⟩ := ih
      refine ⟨rest ++ ", " ++ c, ?_⟩
      rw [catList_snoc, hrest]
      simp [String.append_assoc]
  · intro pool err h
    simp [usedCategories, h]
  · intro pool cats h
    simp [usedCategories, h]

/-- C23: for every outcome of the configuration fetch (a row, no database, a query error)
and of the category fetch, `GetInitialSetup` returns a setup and a nil error; `fetchConfig`
yields a configuration only when a row is scanned; and whenever it yields none, the setup
is built from the default: voice `Aoede`, language `pt-BR`, temperature 0.7, and a system
prompt and knowledge docstring templated on the client name. -/
theorem GetInitialSetup_never_fails (db : Option Pool) (clientName : String) :
    (GetInitialSetup db clientName).2 = none ∧
    (GetInitialSetup db clientName).1 =
      some (setupBody (usedConfig db clientName) (usedCategories db)) ∧
    (fetchConfig none clientName = (none, none) ∧
      (∀ (pool : Pool) (err : String), pool.configRow clientName = Except.error err →
        fetchConfig (some pool) clientName = (none, some err)) ∧
      (∀ (pool : Pool) (cfg : AIConfig), pool.configRow clientName = Except.ok cfg →
        fetchConfig (some pool) clientName = (some cfg, none))) ∧
    ((fetchConfig db clientName).1 = none →
      usedConfig db clientName = defaultConfig clientName ∧
      (setupBody (usedConfig db clientName) (usedCategories db)).GenerationConfig.map
          (fun g => (g.SpeechConfig.map (fun sp => (sp.VoiceConfig.map
            (fun v => v.PrebuiltVoiceConfig.map (fun pv => pv.VoiceName)), sp.LanguageCode)),
            g.Temperature)) =
        some (some (some (some "Aoede"), "pt-BR"), 7 / 10) ∧
      (usedConfig db clientName).SystemPrompt =
        "Você é o " ++ clientName ++ ", um assistente de voz avançado criado pelo estúdio TkzM." ∧
      (usedConfig db clientName).DocstringToolKnowledge =
        "Invoque esta ferramenta sempre que o usuário tiver dúvidas sobre o " ++ clientName ++ ".") := by
  refine ⟨by rw [GetInitialSetup_eq], by rw [GetInitialSetup_eq], ⟨rfl, ?_, ?_⟩, ?_⟩
  · intro pool err h
    simp [fetchConfig, h]
  · intro pool cfg h
    simp [fetchConfig, h]
  · intro h
    have hcfg : usedConfig db clientName = defaultConfig clientName := by
      simp [usedConfig, h]
    rw [hcfg]
    exact ⟨rfl, rfl, rfl, rfl⟩

/-! ## Claim on typed user text -/

theorem extendUserText_append (pending : String) (xs ys : List String) :
    extendUserText pending (xs ++ ys) = extendUserText (extendUserText pending xs) ys := by
  induction xs generalizing pending with
  | nil => rfl
  | cons t rest ih =>
    simp only [List.cons_append, extendUserText]
    split_ifs <;> exact ih _

theorem addUserPart_text (s : Session) (part : Part) :
    (addUserPart s part).TurnUserText = extendUserText s.TurnUserText [part.Text] := by
  unfold addUserPart
  simp only [extendUserText]
  by_cases h : part.Text = "" <;> by_cases h2 : s.TurnUserText = "" <;> simp [h, h2]

theorem foldl_addUserPart_text (parts : List Part) (s : Session) :
    (parts.foldl addUserPart s).TurnUserText =
      extendUserText s.TurnUserText (parts.map (fun p => p.Text)) := by
  induction parts generalizing s with
  | nil => rfl
  | cons p ps ih =>
    rw [List.foldl_cons, ih, addUserPart_text, List.map_cons,
      ← extendUserText_append]
    rfl

theorem foldl_turns_text (turns : List Turn) (s : Session) :
    (turns.foldl (fun acc turn => turn.Parts.foldl addUserPart acc) s).TurnUserText =
      extendUserText s.TurnUserText (partTexts turns) := by
  induction turns generalizing s with
  | nil => rfl
  | cons t ts ih =>
    rw [List.foldl_cons, ih, foldl_addUserPart_text, partTexts, extendUserText_append]

theorem isProactive_iff (content : ClientContent) :
    isProactive content = true ↔
      ∃ role part, content.Turns = [{ Role := role, Parts := [part] }] ∧ part.Text = "Olá" := by
  unfold isProactive
  constructor
  · intro h
    split at h
    · rename_i turn hturns
      split at h
      · rename_i part hparts
        refine ⟨turn.Role, part, ?_, by simpa using h⟩
        rw [hturns]
        cases turn
        simp_all
      · exact absurd h (by decide)
    · exact absurd h (by decide)
  · rintro ⟨role, part, hturns, htext⟩
    simp [hturns, htext]

/-- C24: for every session state and every downstream `clientContent` (or `client_content`)
envelope whose payload decodes: if the content has exactly one turn with exactly one part
whose text is "Olá", the pending user text is unchanged; otherwise it becomes its prior
value extended with every non-empty part text in order, each preceded by a single space
when the text accumulated so far is non-empty. In both cases no other session field
changes (so the transcript is unchanged) and the only effect is the translated
`clientContent` sent upstream. -/
theorem downstreamReader_clientContent (env : ReaderEnv) (s : Session) (message : Bytes)
    (msg : Envelope) (content : ClientContent)
    (hdecode : env.unmarshalEnvelope message = some msg)
    (htype : msg.MsgType = "clientContent" ∨ msg.MsgType = "client_content")
    (hpayload : env.unmarshalClientContent msg.Payload = some content) :
    downstreamReader env s message =
      some ({ s with
              TurnUserText :=
                if isProactive content = true then s.TurnUserText
                else extendUserText s.TurnUserText (partTexts content.Turns) },
            [Effect.toGemini (Wire.clientMessage
              { Setup := none, ClientContent := some content, RealtimeInput := none
                ToolResponse := none })]) ∧
    (isProactive content = true ↔
      ∃ role part, content.Turns = [{ Role := role, Parts := [part] }] ∧ part.Text = "Olá") := by
  refine ⟨?_, isProactive_iff content⟩
  have htext : (noteClientContent s content).TurnUserText =
      if isProactive content = true then s.TurnUserText
      else extendUserText s.TurnUserText (partTexts content.Turns) := by
    unfold noteClientContent
    split_ifs
    · rfl
    · exact foldl_turns_text content.Turns s
  have hnote := noteClientContent_frame s content
  rw [htext] at hnote
  have h1 : msg.MsgType ≠ "setup" := by
    rcases htype with h | h <;> rw [h] <;> decide
  have h2 : ¬ (msg.MsgType = "realtimeInput" ∨ msg.MsgType = "realtime_input") := by
    rcases htype with h | h <;> rw [h] <;> decide
  simp only [downstreamReader, hdecode, translate, h1, h2, htype, if_true, if_false,
    hpayload, forwardTranslated, emptyClientMessage]
  rw [hnote]
  simp

/-- Witness for `downstreamReader_clientContent`: "bom dia" and "preciso de ajuda" typed
while "oi" is pending. -/
theorem downstreamReader_clientContent_witness :
    (demoJson.unmarshalEnvelope typedFrame = some ⟨"clientContent", typedPayload⟩ ∧
      demoJson.unmarshalClientContent typedPayload = some typedContent) ∧
    (downstreamReader demoJson pendingOi typedFrame).map (fun r => r.1.TurnUserText) =
      some "oi bom dia preciso de ajuda" ∧
    downstreamReader demoJson pendingOi typedFrame =
      some ({ pendingOi with
              TurnUserText :=
                if isProactive typedContent = true then pendingOi.TurnUserText
                else extendUserText pendingOi.TurnUserText (partTexts typedContent.Turns) },
            [Effect.toGemini (Wire.clientMessage
              { Setup := none, ClientContent := some typedContent, RealtimeInput := none
                ToolResponse := none })]) :=
  ⟨⟨by decide, by decide⟩, by decide,
   (downstreamReader_clientContent demoJson pendingOi typedFrame
      ⟨"clientContent", typedPayload⟩ typedContent (by decide) (Or.inl rfl) (by decide)).1⟩

/-! ## Claims on the dashboard base URL, the registry and the setup without database -/

/-- When `DASHBOARD_INTERNAL_URL` is set, the search call and the sync use its value. -/
theorem base_url_when_set (env : ToolEnv) (query category : String)
    (a : SyncArgs) (hset : env.getenv "DASHBOARD_INTERNAL_URL" ≠ "") :
    searchURL env query category =
      env.getenv "DASHBOARD_INTERNAL_URL" ++ "/api/knowledge/search?q=" ++
        env.queryEscape query ++ "&category=" ++
        env.queryEscape (if category = "" then "all" else category) ∧
    (a.post env.getenv).url = env.getenv "DASHBOARD_INTERNAL_URL" ++ "/api/calls/sync" := by
  simp [searchURL, SyncArgs.post, syncWithDashboard, hset]

/-- C25 (failing input): with `DASHBOARD_INTERNAL_URL` unset, `callRAG` requests
`http://dashboard-server:8080/...` while `syncWithDashboard` posts to
`http://dashboard-server:8081/...`. -/
theorem base_urls_differ_when_unset :
    demoToolEnv.getenv "DASHBOARD_INTERNAL_URL" = "" ∧
    searchURL demoToolEnv "preço" "" =
      "http://dashboard-server:8080/api/knowledge/search?q=preço&category=all" ∧
    (syncWithDashboard demoToolEnv.getenv "abc" "aiVoice" (some []) 12 0 0 "Active").url =
      "http://dashboard-server:8081/api/calls/sync" := by
  decide

/-- After an accepted request, a lookup of the new session's id returns the new session. -/
theorem acceptSession_registers (w : World) (req : AcceptRequest) (p : Nat)
    (h : (acceptSession w req).2 = some p) :
    (acceptSession w req).1.activeSessions.lookup (acceptSessionID req) = some p ∧
    (acceptSession w req).1.sessions[p]? =
      some (newSession (acceptSessionID req) (acceptClientName req)) := by
  unfold acceptSession at h ⊢
  by_cases h1 : req.upgradeOk = true
  · by_cases h2 : req.apiKey = ""
    · simp [h1, h2] at h
    · by_cases h3 : req.dialOk = true
      · simp only [h1, h2, h3, Bool.not_true, Bool.false_eq_true, if_false,
          Option.some.injEq] at h ⊢
        subst h
        simp [registryStore, newSession, List.lookup]
      · simp [h1, h2, h3] at h
  · simp [h1] at h

/-- After the end of a session, a lookup of its id returns nothing. -/
theorem finishSession_unregisters (w : World) (p : Nat) (elapsed : Int) (s : Session)
    (h : w.sessions[p]? = some s) :
    (finishSession w p elapsed).1.activeSessions.lookup s.ID = none := by
  unfold finishSession
  simp only [h, registryDelete]
  generalize w.activeSessions = registry
  induction registry with
  | nil => rfl
  | cons e rest ih =>
    by_cases he : e.1 = s.ID
    · simpa [List.filter_cons, he] using ih
    · have hne : (s.ID == e.1) = false := by
        simpa using fun h2 : s.ID = e.1 => he h2.symm
      obtain ⟨k, v⟩ := e
      simp only [List.filter_cons, he, ne_eq, not_false_eq_true, decide_True, if_true,
        List.lookup] at hne ⊢
      rw [hne]
      exact ih

/-- C26 (failing input): two requests with `callId=abc` are accepted (sessions 0 and 1,
neither cleaned up). A lookup of `abc` returns session 1, not session 0; and once session
0 ends, a lookup of `abc` returns nothing although session 1 is still active. -/
theorem repeated_call_id_breaks_registry :
    (acceptSession emptyWorld acceptAbc).2 = some 0 ∧
    (acceptSession (acceptSession emptyWorld acceptAbc).1 acceptAbc).2 = some 1 ∧
    twoAbcWorld.sessions.map (fun s => (s.ID, s.Status)) =
      [("abc", "Active"), ("abc", "Active")] ∧
    twoAbcWorld.activeSessions.lookup "abc" = some 1 ∧
    (finishSession twoAbcWorld 0 5).1.sessions.map (fun s => (s.ID, s.Status)) =
      [("abc", "Interrupted"), ("abc", "Active")] ∧
    (finishSession twoAbcWorld 0 5).1.activeSessions.lookup "abc" = none := by
  decide

/-- A downstream `setup` frame: with a connected pool the reader stores the three limits
and sends the setup upstream; with a nil pool the limits query faults. -/
theorem downstreamReader_setup (json : ReaderEnv) (db : Option Pool) (s : Session)
    (message : Bytes) (msg : Envelope)
    (hdecode : json.unmarshalEnvelope message = some msg) (htype : msg.MsgType = "setup") :
    downstreamReader (serverReaderEnv json db) s message =
      match db with
      | none => none
      | some pool =>
        some ({ s with
                DurationLimit := (pool.limitsRow s.ClientName).1
                TerminationAlertTime := (pool.limitsRow s.ClientName).2.1
                AlertInstruction := (pool.limitsRow s.ClientName).2.2 },
              [Effect.toGemini (Wire.clientMessage
                { Setup := some (setupBody (usedConfig db s.ClientName) (usedCategories db))
                  ClientContent := none, RealtimeInput := none, ToolResponse := none })]) := by
  cases db with
  | none =>
    simp [downstreamReader, serverReaderEnv, hdecode, translate, htype, queryLimits]
  | some pool =>
    simp [downstreamReader, serverReaderEnv, hdecode, translate, htype, queryLimits,
      GetInitialSetup_eq, forwardTranslated, emptyClientMessage]

/-- C27 (failing input): no database is configured and the frame `{"type":"setup"}`
arrives. `GetInitialSetup` does build the setup from the default configuration, but the
limits query that follows is made on the nil pool and faults: the reader does not return,
nothing is sent upstream. -/
theorem setup_without_database_faults :
    demoJson.unmarshalEnvelope setupFrame = some ⟨"setup", ""⟩ ∧
    (GetInitialSetup none "aiVoice").1.isSome = true ∧
    (downstreamReader (serverReaderEnv demoJson none) (newSession "abc" "aiVoice")
      setupFrame).isNone = true ∧
    (downstreamReader (serverReaderEnv demoJson (some demoPool)) (newSession "abc" "aiVoice")
      setupFrame).map (fun r =>
        (r.1.DurationLimit, r.1.TerminationAlertTime, (sentToGemini r.2).length)) =
      some (60, 50, 1) := by
  decide

/-! ## Claim on the shutdown of the pumps -/

theorem pumps_fill (n : Nat) (hn : n ≤ toGeminiCapacity) :
    Relation.ReflTransGen (fun p q => q ∈ pumpSteps p) startPumps
      { startPumps with queued := n } := by
  induction n with
  | zero => exact Relation.ReflTransGen.refl
  | succ k ih =>
    have hk : k < toGeminiCapacity := hn
    refine (ih (Nat.le_of_lt hk)).trans ?_
    refine Relation.ReflTransGen.trans
      (Relation.ReflTransGen.single
        (b := { startPumps with queued := k, reader := ReaderPc.sending }) ?_)
      (Relation.ReflTransGen.single ?_)
    · simp [pumpSteps, cancelSteps, watchdogSteps, writerSteps, readerSteps, waitSteps,
        startPumps]
    · simp [pumpSteps, cancelSteps, watchdogSteps, writerSteps, readerSteps, waitSteps,
        startPumps, hk]

/-- C28 (failing input): the downstream reader fills `ToGemini` (512 messages) and stands
in the send of one more; the scope is cancelled, the watchdog closes the sockets, the
upstream writer sees `ctx.Done()` and returns. That state is reachable and has no
successor: the reader never returns, `g.Wait()` never returns, `Cleanup` never runs. -/
theorem blocked_send_prevents_cleanup :
    Relation.ReflTransGen (fun p q => q ∈ pumpSteps p) startPumps stuckPumps ∧
    pumpSteps stuckPumps = [] ∧
    stuckPumps.cancelled = true ∧ stuckPumps.socketsClosed = true ∧
    stuckPumps.reader = ReaderPc.sending ∧ stuckPumps.cleanedUp = false := by
  refine ⟨?_, by decide, rfl, rfl, rfl, rfl⟩
  refine (pumps_fill toGeminiCapacity (Nat.le_refl _)).trans ?_
  have step1 :
      ({ startPumps with queued := toGeminiCapacity, reader := ReaderPc.sending } : Pumps) ∈
        pumpSteps { startPumps with queued := toGeminiCapacity } := by
    decide
  have step2 :
      ({ startPumps with
         queued := toGeminiCapacity, reader := ReaderPc.sending, cancelled := true } : Pumps) ∈
        pumpSteps { startPumps with queued := toGeminiCapacity, reader := ReaderPc.sending } := by
    decide
  have step3 :
      ({ stuckPumps with writer := WriterPc.selecting } : Pumps) ∈
        pumpSteps
          { startPumps with
            queued := toGeminiCapacity, reader := ReaderPc.sending, cancelled := true } := by
    decide
  have step4 : stuckPumps ∈ pumpSteps { stuckPumps with writer := WriterPc.selecting } := by
    decide
  exact (((Relation.ReflTransGen.single step1).trans (Relation.ReflTransGen.single step2)).trans
    (Relation.ReflTransGen.single step3)).trans (Relation.ReflTransGen.single step4)

/-! ## Claim on the shape of the utterances -/

theorem append_ne_empty (a b : String) (h : a ≠ "") : a ++ b ≠ "" := by
  intro hab
  apply h
  have hdata := congrArg String.data hab
  simp only [String.data_append] at hdata
  exact String.ext (List.append_eq_nil.mp hdata).1

theorem linkText_ne_empty (aliasText url : String) :
    "[" ++ aliasText ++ "](" ++ url ++ ")" ≠ "" := by
  have h1 : "[" ++ aliasText ≠ "" := append_ne_empty _ _ (by decide)
  exact append_ne_empty _ _ (append_ne_empty _ _ (append_ne_empty _ _ h1))

theorem wellFormed_step (op : Op) (s s1 : Session) (effects : List Effect)
    (h : op.run s = some (s1, effects)) (hwf : ∀ u ∈ s.Transcript, wellFormed u) :
    ∀ u ∈ s1.Transcript, wellFormed u := by
  cases op with
  | downstream env message =>
    rw [(downstreamReader_transcript env s s1 message effects h).1]
    exact hwf
  | toolCall env fc =>
    simp only [Op.run, Option.some.injEq] at h
    have hs : s1 = (handleToolCall env s fc).1 := by rw [h]
    rw [hs, handleToolCall_fst]
    split_ifs
    · exact hwf
    · intro u hu
      simp only [List.mem_append, List.mem_singleton] at hu
      rcases hu with hu | rfl
      · exact hwf u hu
      · exact ⟨Or.inr rfl, linkText_ne_empty _ _⟩
    · exact hwf
  | serverContent env sc =>
    simp only [Op.run, Option.some.injEq] at h
    have hs : s1 = (processServerContent env s sc).1 := by rw [h]
    rw [hs, processServerContent_fst]
    intro u hu
    simp only [List.mem_append] at hu
    rcases hu with (hu | hu) | hu
    · exact hwf u hu
    · unfold userFlush at hu
      split_ifs at hu with hc
      · simp only [List.mem_singleton] at hu
        subst hu
        exact ⟨Or.inl rfl, hc.2⟩
      · simp at hu
    · unfold agentFlush at hu
      split_ifs at hu with hc
      · simp only [List.mem_singleton] at hu
        subst hu
        exact ⟨Or.inr rfl, hc.2⟩
      · simp at hu
  | usage um =>
    simp only [Op.run, updateUsage, Option.some.injEq, Prod.mk.injEq] at h
    obtain ⟨rfl, -⟩ := h
    exact hwf
  | terminate =>
    simp only [Op.run, hangUp, Option.some.injEq, Prod.mk.injEq] at h
    obtain ⟨rfl, -⟩ := h
    exact hwf
  | cleanup elapsed =>
    simp only [Op.run, Cleanup, Option.some.injEq, Prod.mk.injEq] at h
    obtain ⟨rfl, -⟩ := h
    split_ifs <;> exact hwf

theorem wellFormed_trace (ops : List Op) (s s2 : Session) (effects : List Effect)
    (h : runTrace s ops = some (s2, effects)) (hwf : ∀ u ∈ s.Transcript, wellFormed u) :
    ∀ u ∈ s2.Transcript, wellFormed u := by
  induction ops generalizing s effects with
  | nil =>
    simp only [runTrace, Option.some.injEq, Prod.mk.injEq] at h
    obtain ⟨rfl, -⟩ := h
    exact hwf
  | cons op rest ih =>
    obtain ⟨s1, e1, e2, hop, hrest, -⟩ := runTrace_cons s s2 op rest effects h
    exact ih s1 e2 hrest (wellFormed_step op s s1 e1 hop hwf)

/-- C29: in every session state reached from a new session by any sequence of operations,
every utterance of the transcript has role `user` or `agent` and a non-empty text. The
utterance appended by a `sendLink` call has role `agent` and the text `[alias](url)`. -/
theorem transcript_utterances_wellFormed (sessionID clientName : String) (ops : List Op)
    (s : Session) (effects : List Effect)
    (h : runTrace (newSession sessionID clientName) ops = some (s, effects)) :
    (∀ u ∈ s.Transcript, (u.role = "user" ∨ u.role = "agent") ∧ u.text ≠ "") ∧
    (∀ (env : ToolEnv) (fc : FunctionCall), fc.Name = "sendLink" →
      (appended s (handleToolCall env s fc).1).map (fun u => (u.role, u.text)) =
        [("agent", "[" ++ argString fc.Args "alias" ++ "](" ++ argString fc.Args "url" ++ ")")]) := by
  refine ⟨?_, ?_⟩
  · exact wellFormed_trace ops _ s effects h (by simp [newSession])
  · intro env fc hname
    have h1 : ("sendLink" = "finalizar_atendimento") = False := by decide
    rw [handleToolCall_fst]
    simp [hname, h1, appended]

/-- Witness for `transcript_utterances_wellFormed`: a turn with a barge-in and a link. -/
theorem transcript_utterances_wellFormed_witness :
    runTrace (newSession "abc" "aiVoice") linkTrace = some (linkRun.1, linkRun.2) ∧
    linkRun.1.Transcript.map (fun u => (u.role, u.text)) =
      [("user", "oi"), ("agent", "[Clique aqui](https://x.y)"), ("user", "tudo bem?"),
       ("agent", "Olá, como posso ajudar?")] ∧
    (∀ u ∈ linkRun.1.Transcript, (u.role = "user" ∨ u.role = "agent") ∧ u.text ≠ "") :=
  ⟨rfl, by decide,
   (transcript_utterances_wellFormed "abc" "aiVoice" linkTrace linkRun.1 linkRun.2 rfl).1⟩

/-! ## Claim on the configuration editor of the dashboard -/

theorem cutAt_isPrefix (m l : List Char) : cutAt m l <+: l := by
  induction l with
  | nil => exact List.prefix_refl _
  | cons c rest ih =>
    unfold cutAt
    split_ifs
    · exact List.nil_prefix
    · exact (List.prefix_cons_inj c).mpr ih

theorem cutAt_no_marker (m l : List Char) (hm : m ≠ []) : ¬ m <:+: cutAt m l := by
  induction l with
  | nil =>
    intro h
    exact hm (List.eq_nil_of_infix_nil h)
  | cons c rest ih =>
    unfold cutAt
    split_ifs with hp
    · intro h
      exact hm (List.eq_nil_of_infix_nil h)
    · intro h
      rcases List.infix_cons_iff.mp h with h1 | h2
      · apply hp
        rw [List.isPrefixOf_iff_prefix]
        exact h1.trans ((List.prefix_cons_inj c).mpr (cutAt_isPrefix m rest))
      · exact ih h2

theorem no_match_across (m d rest : List Char) (hd : d ≠ [])
    (hborder : ∀ k, k < m.length → 0 < k → m.drop k ≠ m.take (m.length - k))
    (hin : ¬ m <:+: d) : ¬ m <+: d ++ (m ++ rest) := by
  intro hp
  by_cases hlen : m.length ≤ d.length
  · exact hin (List.prefix_of_prefix_length_le hp (List.prefix_append d _) hlen).isInfix
  · have hlt : d.length < m.length := Nat.lt_of_not_le hlen
    obtain ⟨t, ht⟩ := List.prefix_of_prefix_length_le (List.prefix_append d _) hp
      (Nat.le_of_lt hlt)
    have hp2 : d ++ t <+: d ++ (m ++ rest) := by
      rw [ht]
      exact hp
    have hp3 : t <+: m ++ rest := (List.prefix_append_right_inj d).mp hp2
    have hmlen : m.length = d.length + t.length := by
      rw [← ht, List.length_append]
    have hp4 : t <+: m :=
      List.prefix_of_prefix_length_le hp3 (List.prefix_append m rest) (by omega)
    have htake : t = m.take t.length := List.prefix_iff_eq_take.mp hp4
    have hdrop : m.drop d.length = t := by
      rw [← ht, List.drop_left]
    have hpos : 0 < d.length := List.length_pos.mpr hd
    apply hborder d.length hlt hpos
    rw [hdrop]
    have : m.length - d.length = t.length := by omega
    rw [this]
    exact htake

theorem cutAt_append_marker (m d rest : List Char) (hm : m ≠ [])
    (hborder : ∀ k, k < m.length → 0 < k → m.drop k ≠ m.take (m.length - k))
    (hin : ¬ m <:+: d) : cutAt m (d ++ (m ++ rest)) = d := by
  induction d with
  | nil =>
    cases hml : m ++ rest with
    | nil =>
      exact absurd (List.append_eq_nil.mp hml).1 hm
    | cons c l =>
      have hp : m.isPrefixOf (c :: l) = true := by
        rw [List.isPrefixOf_iff_prefix, ← hml]
        exact List.prefix_append m rest
      simp [cutAt, hp]
  | cons c d2 ih =>
    have hnp : m.isPrefixOf (c :: (d2 ++ (m ++ rest))) = false := by
      cases hcase : m.isPrefixOf (c :: (d2 ++ (m ++ rest)))
      · rfl
      · rw [List.isPrefixOf_iff_prefix] at hcase
        exact absurd hcase (no_match_across m (c :: d2) rest (by simp) hborder hin)
    have hin2 : ¬ m <:+: d2 := fun h => hin (List.infix_cons h)
    simp [cutAt, hnp, ih hin2]

set_option maxRecDepth 100000 in
theorem injectedMarker_no_border :
    ∀ k, k < injectedMarker.data.length → 0 < k →
      injectedMarker.data.drop k ≠ injectedMarker.data.take (injectedMarker.data.length - k) := by
  decide

theorem dynamicInstruction_data (list : String) :
    (dynamicInstruction list).data =
      injectedMarker.data ++
        (" (Categorias Ativas): [".data ++ (list.data ++
          "]\nUse o parâmetro 'category' com uma das opções acima para filtrar a busca, ou 'all' para busca global.".data)) := by
  unfold dynamicInstruction
  rw [String.data_append, String.data_append]
  have h : "\n\n---\n⚠️ INJEÇÃO DINÂMICA (Categorias Ativas): [".data =
      injectedMarker.data ++ " (Categorias Ativas): [".data := by decide
  rw [h]
  simp [List.append_assoc]

/-- The round trip for every docstring that does not contain the marker text. -/
theorem round_trip_of_clean (stored : String) (cats : List String)
    (hclean : ¬ injectedMarker.data <:+: stored.data) :
    stripInjected (servedDocstring stored cats) = stored := by
  unfold stripInjected servedDocstring
  rw [String.data_append, dynamicInstruction_data,
    cutAt_append_marker _ _ _ (by decide) injectedMarker_no_border hclean]

/-- A text without line break does not contain the marker, which starts with one. -/
theorem clean_of_single_line (text : List Char) (hline : '\n' ∉ text) :
    ¬ injectedMarker.data <:+: text := by
  intro h
  exact hline (List.IsInfix.mem (by decide) h)

theorem storedDocstring_clean (stored : String) (hstored : StoredDocstring stored) :
    ¬ injectedMarker.data <:+: stored.data := by
  cases hstored with
  | onboarding => exact clean_of_single_line _ (by decide)
  | seed clientName hline =>
    apply clean_of_single_line
    unfold seedKnowledgeDoc
    rw [String.data_append, String.data_append]
    simp only [List.mem_append, not_or]
    exact ⟨⟨by decide, hline⟩, by decide⟩
  | saved submitted => exact cutAt_no_marker _ _ (by decide)

/-- C30: config-editor round trip on the dashboard. For every knowledge docstring `d` the
repository stores (the two seeds and whatever the PUT handler has saved) and every
category list, removing the dynamically injected part (the strip of the PUT handler) from
the docstring served by the GET handler (`d` followed by the dynamic category suffix)
yields exactly `d`: saving the configuration as loaded stores the original docstring, and
what was stored is again a stored docstring. -/
theorem stored_docstring_round_trip (stored : String) (cats : List String)
    (hstored : StoredDocstring stored) :
    stripInjected (servedDocstring stored cats) = stored ∧
    savedDocstring (servedDocstring stored cats) = stored ∧
    StoredDocstring (savedDocstring (servedDocstring stored cats)) := by
  have h := round_trip_of_clean stored cats (storedDocstring_clean stored hstored)
  exact ⟨h, h, StoredDocstring.saved _⟩

/-- Witness for `stored_docstring_round_trip`: a docstring typed into the editor is saved,
served with two categories, and saved again as loaded. -/
theorem stored_docstring_round_trip_witness :
    StoredDocstring (savedDocstring "Use para dúvidas.") ∧
    savedDocstring "Use para dúvidas." = "Use para dúvidas." ∧
    stripInjected (servedDocstring (savedDocstring "Use para dúvidas.") ["precos", "prazos"]) =
      savedDocstring "Use para dúvidas." :=
  ⟨StoredDocstring.saved _, by decide,
   (stored_docstring_round_trip (savedDocstring "Use para dúvidas.") ["precos", "prazos"]
      (StoredDocstring.saved _)).1⟩

end AiVoice
